import Mathlib

/-! # FilebufIO (casa/IO/FilebufIO.h, FilebufIO.cc) over a model of the descriptor and stdio layer

The class keeps a few fields and hands every transfer to the C library.  The
embedding therefore has two layers:

* `World`: the operating system as the class sees it: open file descriptions,
  the descriptor table, the `FILE` objects, and the list of calls made so far;
* `FilebufIO`: the private fields of the class, and its member functions as
  programs in the monad `M` that threads the fields and the world and can end in
  a thrown `AipsError` or in undefined behaviour (a null `FILE*` given to stdio).
-/

namespace Casacore

/-! ## The operating system -/

abbrev Byte := Fin 256

/-- Values of `<fcntl.h>` (Linux, BSD, macOS). -/
def O_RDONLY : Int := 0
def O_WRONLY : Int := 1
def O_RDWR : Int := 2
def O_ACCMODE : Int := 3

/-- An open file description: what a descriptor refers to. -/
structure OpenFile where
  /-- status flags reported by `fcntl(fd, F_GETFL)` -/
  flags : Nat
  /-- regular file (true) or pipe/socket (false) -/
  seekable : Bool
  /-- the device fails every transfer (EIO, ENOSPC, EPIPE) -/
  ioerr : Bool
  bytes : List Byte
  /-- file offset -/
  pos : Nat
  deriving DecidableEq, Repr

/-- A `FILE` object made by `fdopen`. -/
structure Stream where
  fd : Int
  mode : String
  /-- error indicator, read by `ferror` -/
  err : Bool
  /-- size handed to `setvbuf`, 0 while the default buffering applies -/
  vbuf : Nat
  deriving DecidableEq, Repr

/-- The calls the class makes, as recorded in `World.trace`. -/
inductive Call where
  | fcntl (fd : Int)
  | dup (fd : Int)
  | fdopen (fd : Int) (mode : String)
  | rewind (h : Option Nat)
  | setvbuf (h : Option Nat) (size : Nat)
  | fclose (h : Option Nat)
  | close (fd : Int)
  | fflush (h : Option Nat)
  | fwrite (h : Option Nat) (size : Nat) (nmemb : Nat)
  | fread (h : Option Nat) (size : Nat) (nmemb : Nat)
  | ferror (h : Option Nat)
  | fseeko (h : Option Nat) (offset : Int) (whence : Nat)
  | ftello (h : Option Nat)
  deriving DecidableEq, Repr

structure World where
  files : List OpenFile
  /-- descriptor table: descriptor `n` refers to `files[i]` when `fdtab[n] = some i` -/
  fdtab : List (Option Nat)
  /-- `FILE` objects; a `FILE*` is an index, `none` marks a closed one -/
  streams : List (Option Stream)
  trace : List Call
  deriving DecidableEq, Repr

def SEEK_SET : Nat := 0
def SEEK_CUR : Nat := 1
def SEEK_END : Nat := 2

def World.log (w : World) (c : Call) : World :=
  { w with trace := w.trace ++ [c] }

def World.setFile (w : World) (i : Nat) (f : OpenFile) : World :=
  { w with files := w.files.set i f }

def World.setStream (w : World) (n : Nat) (s : Option Stream) : World :=
  { w with streams := w.streams.set n s }

def World.addStream (w : World) (s : Stream) : World :=
  { w with streams := w.streams ++ [some s] }

/-- Entry `j` of a descriptor table set to `v`, the table grown when `j` is beyond it. -/
def putSlot (l : List (Option Nat)) (j : Nat) (v : Option Nat) : List (Option Nat) :=
  if j < l.length then l.set j v else l ++ List.replicate (j - l.length) none ++ [v]

def World.setFd (w : World) (j : Nat) (v : Option Nat) : World :=
  { w with fdtab := putSlot w.fdtab j v }

/-- Entry `k` of a table whose entries can be vacant. -/
def entry {α : Type} (l : List (Option α)) (k : Nat) : Option α :=
  match l[k]? with
  | some (some a) => some a
  | _ => none

/-- The open file description behind a descriptor, with its index. -/
def World.file (w : World) (fd : Int) : Option (Nat × OpenFile) :=
  if fd < 0 then none
  else
    match entry w.fdtab fd.toNat with
    | some i => (w.files[i]?).map fun f => (i, f)
    | none => none

/-- The `FILE` object behind a `FILE*`; `none` for a null or closed one. -/
def World.stream (w : World) (h : Option Nat) : Option (Nat × Stream) :=
  match h with
  | none => none
  | some n => (entry w.streams n).map fun s => (n, s)

/-- Lowest unused descriptor number. -/
def freeSlot : List (Option Nat) → Nat
  | [] => 0
  | none :: _ => 0
  | some _ :: t => freeSlot t + 1

/-- `a & b` on C `int`s (two's complement, 32 bits) for a non-negative `b`. -/
def cAnd (a b : Int) : Int :=
  ((Nat.land (a % 4294967296).toNat b.toNat : Nat) : Int)

/-- `fcntl(fd, F_GETFL)`: the status flags, -1 for a descriptor that is not open. -/
def fcntl_GETFL (fd : Int) (w : World) : Int × World :=
  match w.file fd with
  | some (_, f) => ((f.flags : Int), w.log (.fcntl fd))
  | none => (-1, w.log (.fcntl fd))

/-- `dup(fd)`: the lowest unused descriptor, made to refer to the same open file
description; -1 for a descriptor that is not open. -/
def dup (fd : Int) (w : World) : Int × World :=
  match w.file fd with
  | some (i, _) => ((freeSlot w.fdtab : Int), (w.log (.dup fd)).setFd (freeSlot w.fdtab) (some i))
  | none => (-1, w.log (.dup fd))

/-- `fdopen(fd, mode)`: a new `FILE` over the descriptor, null for a descriptor
that is not open. -/
def fdopen (fd : Int) (mode : String) (w : World) : Option Nat × World :=
  match w.file fd with
  | some _ =>
    (some w.streams.length,
      (w.log (.fdopen fd mode)).addStream { fd := fd, mode := mode, err := false, vbuf := 0 })
  | none => (none, w.log (.fdopen fd mode))

/-- `close(fd)`: 0, or -1 for a descriptor that is not open. -/
def close (fd : Int) (w : World) : Int × World :=
  match w.file fd with
  | some _ => (0, (w.log (.close fd)).setFd fd.toNat none)
  | none => (-1, w.log (.close fd))

/-- A stdio call `c` on the stream `h`.  `none` is undefined behaviour: the `FILE*`
is null or closed.  Otherwise `step` gives the result and the new state of the
stream and of the open file description under it, and `lost` the result and the
new state of the stream when its descriptor is no longer open (EBADF). -/
def stdioCall {α : Type} (h : Option Nat) (c : Call) (w : World)
    (step : Stream → OpenFile → α × Stream × OpenFile) (lost : Stream → α × Stream) :
    Option (α × World) :=
  match w.stream h with
  | none => none
  | some (n, s) =>
    match w.file s.fd with
    | some (i, f) =>
      some ((step s f).1,
        ((w.log c).setStream n (some (step s f).2.1)).setFile i (step s f).2.2)
    | none => some ((lost s).1, (w.log c).setStream n (some (lost s).2))

/-- What `rewind` does to an open stream: seek to offset 0, result ignored, and
clear the error indicator. -/
def rewindStep (s : Stream) (f : OpenFile) : Unit × Stream × OpenFile :=
  ((), { s with err := false }, { f with pos := if f.seekable = true then 0 else f.pos })

/-- `rewind(stream)`. -/
def rewind (h : Option Nat) (w : World) : Option (Unit × World) :=
  stdioCall h (.rewind h) w rewindStep (fun s => ((), { s with err := false }))

/-- `setvbuf(stream, buf, _IOFBF, size)`. -/
def setvbuf (h : Option Nat) (size : Nat) (w : World) : Option (Unit × World) :=
  stdioCall h (.setvbuf h size) w
    (fun s f => ((), { s with vbuf := size }, f))
    (fun s => ((), { s with vbuf := size }))

/-- `fflush(stream)`: the model keeps no pending output, so only the call is recorded. -/
def fflush (h : Option Nat) (w : World) : Option (Unit × World) :=
  stdioCall h (.fflush h) w (fun s f => ((), s, f)) (fun s => ((), s))

/-- `fclose(stream)`: closes the stream and the descriptor under it. -/
def fclose (h : Option Nat) (w : World) : Option (Unit × World) :=
  match w.stream h with
  | none => none
  | some (n, s) =>
    match w.file s.fd with
    | some _ => some ((), (((w.log (.fclose h)).setStream n none).setFd s.fd.toNat none))
    | none => some ((), (w.log (.fclose h)).setStream n none)

def canRead (mode : String) : Bool := mode = "r" || mode = "r+"
def canWrite (mode : String) : Bool := mode = "w" || mode = "r+"

/-- The file contents after `data` is written at offset `pos`; a gap left by a
seek beyond the end reads as zero bytes. -/
def overwrite (bytes : List Byte) (pos : Nat) (data : List Byte) : List Byte :=
  (bytes ++ List.replicate (pos - bytes.length) 0).take pos ++ data
    ++ bytes.drop (pos + data.length)

/-- What `fwrite(buf, size, 1, stream)` does to an open stream: one item of `size`
bytes taken from `buf` goes to the file offset and 1 is returned, or 0 with the
error indicator set when the stream is not open for writing or the device fails. -/
def fwriteStep (buf : List Byte) (size : Nat) (s : Stream) (f : OpenFile) :
    Nat × Stream × OpenFile :=
  if canWrite s.mode = true ∧ f.ioerr = false then
    (1, s, { f with bytes := overwrite f.bytes f.pos (buf.take size),
                    pos := f.pos + (buf.take size).length })
  else (0, { s with err := true }, f)

/-- `fwrite(buf, size, 1, stream)`: the number of items written. -/
def fwrite (buf : List Byte) (size : Nat) (h : Option Nat) (w : World) :
    Option (Nat × World) :=
  stdioCall h (.fwrite h size 1) w (fwriteStep buf size) (fun s => (0, { s with err := true }))

/-- What `fread(buf, 1, count, stream)` does to an open stream: up to `count` bytes
from the file offset on are stored in `buf`, or none, with the error indicator
set, when the stream is not open for reading or the device fails. -/
def freadStep (count : Nat) (s : Stream) (f : OpenFile) : List Byte × Stream × OpenFile :=
  if canRead s.mode = true ∧ f.ioerr = false then
    ((f.bytes.drop f.pos).take count, s,
      { f with pos := f.pos + ((f.bytes.drop f.pos).take count).length })
  else ([], { s with err := true }, f)

/-- `fread(buf, 1, count, stream)`: the bytes stored in `buf`. -/
def fread (count : Nat) (h : Option Nat) (w : World) : Option (List Byte × World) :=
  stdioCall h (.fread h 1 count) w (freadStep count) (fun s => ([], { s with err := true }))

/-- `ferror(stream)`. -/
def ferror (h : Option Nat) (w : World) : Option (Int × World) :=
  stdioCall h (.ferror h) w
    (fun s f => (if s.err = true then 1 else 0, s, f))
    (fun s => (if s.err = true then 1 else 0, s))

/-- Where `fseeko` would put the file offset. -/
def seekTarget (f : OpenFile) (offset : Int) (whence : Nat) : Int :=
  (if whence = SEEK_SET then 0 else if whence = SEEK_END then (f.bytes.length : Int)
    else (f.pos : Int)) + offset

/-- `fseeko(stream, offset, whence)`: 0, or -1 when the device cannot seek or
the resulting offset would be negative. -/
def fseeko (h : Option Nat) (offset : Int) (whence : Nat) (w : World) :
    Option (Int × World) :=
  stdioCall h (.fseeko h offset whence) w
    (fun s f =>
      if f.seekable = true ∧ 0 ≤ seekTarget f offset whence then
        (0, s, { f with pos := (seekTarget f offset whence).toNat })
      else (-1, s, f))
    (fun s => (-1, s))

/-- `ftello(stream)`: the file offset, -1 when the device cannot seek. -/
def ftello (h : Option Nat) (w : World) : Option (Int × World) :=
  stdioCall h (.ftello h) w
    (fun s f => (if f.seekable = true then (f.pos : Int) else -1, s, f))
    (fun s => (-1, s))

/-- The `FILE*` `h` is the open stream `s` (slot `n`) over the open file
description `f` (slot `i`). -/
structure World.Open (w : World) (h : Option Nat) (n : Nat) (s : Stream) (i : Nat)
    (f : OpenFile) : Prop where
  stream : w.stream h = some (n, s)
  file : w.file s.fd = some (i, f)

/-- The world after the calls `cs` were recorded, the stream in slot `n` became `s`
and the open file description in slot `i` became `f`. -/
def World.upd (w : World) (cs : List Call) (n : Nat) (s : Stream) (i : Nat)
    (f : OpenFile) : World :=
  { files := w.files.set i f, fdtab := w.fdtab, streams := w.streams.set n (some s),
    trace := w.trace ++ cs }

/-! ## The class -/

/-- Modelled from the spec: `ByteIO::SeekOption` (ByteIO.h is not among the sources),
the directions FromStart, FromEnd and FromCurrent under the names `doSeek` uses. -/
inductive SeekOption where
  | Begin
  | End
  | Current
  deriving DecidableEq, Repr

/-- Modelled from the spec: `AipsError` (Error.h is not among the sources) carries
a message only; the constructors are the five failures of the spec's taxonomy,
one for each message the class builds. -/
inductive AipsError where
  /-- "FilebufIO ... is not writable" (NotWritable) -/
  | notWritable
  /-- "FilebufIO: write error in ..." (WriteFailure) -/
  | writeError
  /-- "FilebufIO::read ... - is not readable" (NotReadable) -/
  | notReadable
  /-- "FilebufIO::read ... - read returned a bad value" (ReadFailure) -/
  | badValue
  /-- "FilebufIO::read - incorrect number of bytes (bytesRead out of size) read" (ShortRead) -/
  | shortRead (bytesRead : Nat) (size : Int)
  deriving DecidableEq, Repr

/-- The private fields of the class. -/
structure FilebufIO where
  itsSeekable : Bool
  itsReadable : Bool
  itsWritable : Bool
  /-- `std::unique_ptr<char[]>`: `none` is `nullptr`, `some k` an array of `k` chars -/
  itsBuffer : Option Nat
  itsBufSize : Nat
  itsFileDesc : Int
  itsDupFileDesc : Int
  /-- `FILE*`, `none` is `nullptr` -/
  itsStream : Option Nat
  itsFileName : String
  deriving DecidableEq, Repr

/-- How a member function ends. -/
inductive Outcome (α : Type) where
  /-- normal return -/
  | ret (a : α) (x : FilebufIO) (w : World)
  /-- an `AipsError` was thrown, with the fields and the world at the throw -/
  | raise (e : AipsError) (x : FilebufIO) (w : World)
  /-- undefined behaviour: stdio was given a null or closed `FILE*` -/
  | undefined
  deriving DecidableEq, Repr

def Outcome.andThen {α β : Type} (o : Outcome α)
    (k : α → FilebufIO → World → Outcome β) : Outcome β :=
  match o with
  | .ret a x w => k a x w
  | .raise e x w => .raise e x w
  | .undefined => .undefined

/-- Member functions: programs over the fields and the world. -/
abbrev M (α : Type) := FilebufIO → World → Outcome α

instance : Monad M where
  pure a := fun x w => .ret a x w
  bind m k := fun x w => (m x w).andThen k

/-- The fields of the object. -/
def this : M FilebufIO := fun x w => .ret x x w

/-- Assignment to fields. -/
def assign (f : FilebufIO → FilebufIO) : M Unit := fun x w => .ret () (f x) w

/-- `throw AipsError (...)` -/
def raise {α : Type} (e : AipsError) : M α := fun x w => .raise e x w

/-- A system call: always returns. -/
def sys {α : Type} (f : World → α × World) : M α :=
  fun x w => .ret (f w).1 x (f w).2

/-- A stdio call on a `FILE*`: undefined on a null or closed one. -/
def stdio {α : Type} (f : World → Option (α × World)) : M α :=
  fun x w =>
    match f w with
    | some (a, w1) => .ret a x w1
    | none => .undefined

/-- Conversion of an `Int64` to `size_t`. -/
def toSizeT (z : Int) : Nat := (z % 2 ^ 64).toNat

/-- Conversion of a `size_t` to `Int64`. -/
def toInt64 (n : Nat) : Int :=
  if n % 2 ^ 64 < 2 ^ 63 then ((n % 2 ^ 64 : Nat) : Int) else ((n % 2 ^ 64 : Nat) : Int) - 2 ^ 64

namespace FilebufIO

/-- `FilebufIO::FilebufIO()` -/
def new : FilebufIO :=
  { itsSeekable := false, itsReadable := false, itsWritable := false,
    itsBuffer := none, itsBufSize := 0, itsFileDesc := -1, itsDupFileDesc := -1,
    itsStream := none, itsFileName := "" }

def fillRWFlags (fd : Int) : M Unit := do
  assign fun x => { x with itsReadable := false }
  assign fun x => { x with itsWritable := false }
  let flags ← sys (fcntl_GETFL fd)
  if cAnd flags O_RDWR = O_RDWR then
    assign fun x => { x with itsReadable := true }
    assign fun x => { x with itsWritable := true }
  else if cAnd flags O_WRONLY = O_WRONLY then
    assign fun x => { x with itsWritable := true }
  else
    assign fun x => { x with itsReadable := true }

def doSeek (offset : Int) (dir : SeekOption) : M Int := do
  if (← this).itsStream = none then
    pure 0
  else
    match dir with
    | .Begin => discard (stdio (fseeko (← this).itsStream offset SEEK_SET))
    | .End => discard (stdio (fseeko (← this).itsStream offset SEEK_END))
    | _ => discard (stdio (fseeko (← this).itsStream offset SEEK_CUR))
    stdio (ftello (← this).itsStream)

/-- Modelled from the spec: `ByteIO::seek` (ByteIO.h is not among the sources),
"returns the absolute resulting position"; it hands the request to `doSeek`. -/
def seek (offset : Int) (dir : SeekOption) : M Int :=
  doSeek offset dir

def fillSeekable : M Unit := do
  let p ← seek 0 .Current
  assign fun x => { x with itsSeekable := decide (p ≥ 0) }

def attach (fd : Int) (bufferSize : Nat) : M Unit := do
  assign fun x => { x with itsFileDesc := fd }
  let openFlags ← sys (fcntl_GETFL fd)
  let mode : String :=
    if cAnd openFlags O_ACCMODE = O_RDONLY then "r"
    else if cAnd openFlags O_ACCMODE = O_WRONLY then "w"
    else "r+"
  let d ← sys (dup fd)
  assign fun x => { x with itsDupFileDesc := d }
  let s ← sys (fdopen (← this).itsDupFileDesc mode)
  assign fun x => { x with itsStream := s }
  stdio (rewind (← this).itsStream)
  if bufferSize ≠ 0 then
    assign fun x => { x with itsBuffer := some bufferSize }
    assign fun x => { x with itsBufSize := bufferSize }
    stdio (setvbuf (← this).itsStream bufferSize)
  fillRWFlags fd
  fillSeekable

/-- `FilebufIO::FilebufIO (int fd, uInt bufferSize)` -/
def newAttached (fd : Int) (bufferSize : Nat) (w : World) : Outcome Unit :=
  attach fd bufferSize new w

def detach (closeFile : Bool) : M Unit := do
  if (← this).itsStream ≠ none then
    stdio (fclose (← this).itsStream)
  if (← this).itsStream ≠ none ∧ closeFile = true then
    discard (sys (close (← this).itsFileDesc))
  assign fun x => { x with itsFileDesc := -1 }
  assign fun x => { x with itsDupFileDesc := -1 }
  assign fun x => { x with itsStream := none }

/-- `FilebufIO::~FilebufIO()`: `detach()` with the default `closeFile=False`. -/
def destructor : M Unit :=
  detach false

def flush : M Unit := do
  if (← this).itsStream ≠ none then
    stdio (fflush (← this).itsStream)

def write (size : Int) (buf : List Byte) : M Unit := do
  if !(← this).itsWritable then
    raise .notWritable
  if size > 0 then
    if (← stdio (fwrite buf (toSizeT size) (← this).itsStream)) ≠ 1 then
      raise .writeError

/-- Returns the byte count and the bytes stored in `buf`. -/
def read (size : Int) (throwException : Bool) : M (Int × List Byte) := do
  if !(← this).itsReadable then
    raise .notReadable
  let buf ← stdio (fread (toSizeT size) (← this).itsStream)
  let bytesRead : Nat := buf.length
  if (← stdio (ferror (← this).itsStream)) ≠ 0 ∧ throwException = true then
    raise .badValue
  else if bytesRead < toSizeT size ∧ throwException = true then
    raise (.shortRead bytesRead size)
  pure (toInt64 bytesRead, buf)

def length : M Int := do
  let pos ← seek 0 .Current
  let len ← seek 0 .End
  if len < 0 then
    pure pos
  else
    discard (seek pos .Begin)
    pure len

def isReadable (x : FilebufIO) : Bool := x.itsReadable
def isWritable (x : FilebufIO) : Bool := x.itsWritable
def isSeekable (x : FilebufIO) : Bool := x.itsSeekable
def fileName (_x : FilebufIO) : String := ""
def bufferSize (x : FilebufIO) : Nat := x.itsBufSize

def resync : M Unit := do
  stdio (rewind (← this).itsStream)

end FilebufIO

end Casacore

/-! ## Vocabulary of the statements -/

namespace Casacore

/-- The `whence` argument `doSeek` gives `fseeko` for each direction. -/
def whenceOf : SeekOption → Nat
  | .Begin => SEEK_SET
  | .End => SEEK_END
  | .Current => SEEK_CUR

/-- The open file description after `fseeko`. -/
def seekFile (f : OpenFile) (offset : Int) (whence : Nat) : OpenFile :=
  if f.seekable = true ∧ 0 ≤ seekTarget f offset whence then
    { f with pos := (seekTarget f offset whence).toNat }
  else f

/-- What `ftello` reports. -/
def tell (f : OpenFile) : Int :=
  if f.seekable = true then (f.pos : Int) else -1

/-- The mode string `attach` gives `fdopen` for the open flags. -/
def attachMode (openFlags : Int) : String :=
  if cAnd openFlags O_ACCMODE = O_RDONLY then "r"
  else if cAnd openFlags O_ACCMODE = O_WRONLY then "w"
  else "r+"

/-- The readable flag `fillRWFlags` stores for the open flags. -/
def readableFlag (flags : Int) : Bool :=
  decide (cAnd flags O_RDWR = O_RDWR) || !decide (cAnd flags O_WRONLY = O_WRONLY)

/-- The writable flag `fillRWFlags` stores for the open flags. -/
def writableFlag (flags : Int) : Bool :=
  decide (cAnd flags O_RDWR = O_RDWR) || decide (cAnd flags O_WRONLY = O_WRONLY)

/-- The fields `attach (fd, bufferSize)` leaves, on a world `w` where `fd` refers
to the open file description `f`. -/
def attachedFields (x : FilebufIO) (w : World) (fd : Int) (bufferSize : Nat) (f : OpenFile) :
    FilebufIO :=
  { itsSeekable := f.seekable,
    itsReadable := readableFlag f.flags,
    itsWritable := writableFlag f.flags,
    itsBuffer := if bufferSize ≠ 0 then some bufferSize else x.itsBuffer,
    itsBufSize := if bufferSize ≠ 0 then bufferSize else x.itsBufSize,
    itsFileDesc := fd,
    itsDupFileDesc := (freeSlot w.fdtab : Int),
    itsStream := some w.streams.length,
    itsFileName := x.itsFileName }

/-- The bytes between the file offset and the end of the file. -/
def OpenFile.rest (f : OpenFile) : List Byte := f.bytes.drop f.pos

/-- The value a member function returned, if it returned. -/
def Outcome.value {α : Type} : Outcome α → Option α
  | .ret a _ _ => some a
  | _ => none

/-- The error a member function threw, if it threw. -/
def Outcome.error {α : Type} : Outcome α → Option AipsError
  | .raise e _ _ => some e
  | _ => none

/-- The fields after the member function returned or threw. -/
def Outcome.fields {α : Type} : Outcome α → Option FilebufIO
  | .ret _ x _ => some x
  | .raise _ x _ => some x
  | .undefined => none

/-- The world after the member function returned or threw. -/
def Outcome.world {α : Type} : Outcome α → Option World
  | .ret _ _ w => some w
  | .raise _ _ w => some w
  | .undefined => none

/-- A member function that leaves the fields as they were whenever it returns or throws. -/
def Keeps {α : Type} (m : M α) : Prop :=
  ∀ (x : FilebufIO) (w : World) (x1 : FilebufIO), (m x w).fields = some x1 → x1 = x

/-- The operations a caller applies to an instance: the public member functions,
and `detach`, which the destructor runs with `closeFile` false. -/
inductive Op where
  | attach (fd : Int) (bufferSize : Nat)
  | detach (closeFile : Bool)
  | read (size : Int) (throwException : Bool)
  | write (size : Int) (buf : List Byte)
  | seek (offset : Int) (dir : SeekOption)
  | length
  | flush
  | resync
  deriving DecidableEq, Repr

/-- The member function an operation names, its result dropped. -/
def Op.run : Op → M Unit
  | .attach fd bufferSize => FilebufIO.attach fd bufferSize
  | .detach closeFile => FilebufIO.detach closeFile
  | .read size throwException => discard ( FilebufIO.read size throwException)
  | .write size buf => FilebufIO.write size buf
  | .seek offset dir => discard ( FilebufIO.seek offset dir)
  | .length => discard FilebufIO.length
  | .flush => FilebufIO.flush
  | .resync => FilebufIO.resync

/-- The states reachable from a default-constructed instance: every operation on
the way returned or threw, and left the fields and the world of the next state. -/
inductive Reachable : FilebufIO → World → Prop where
  | init (w : World) : Reachable FilebufIO.new w
  | step (op : Op) (x : FilebufIO) (w : World) (x1 : FilebufIO) (w1 : World) :
      Reachable x w → (op.run x w).fields = some x1 → (op.run x w).world = some w1 →
      Reachable x1 w1

end Casacore

/-! ## Concrete worlds -/

namespace Casacore

/-- A regular file, empty, open read-write (`O_RDWR`). -/
def emptyFile : OpenFile :=
  { flags := 2, seekable := true, ioerr := false, bytes := [], pos := 0 }

/-- The file `emptyFile`, open as descriptor 3. -/
def emptyFileWorld : World :=
  { files := [emptyFile], fdtab := [none, none, none, some 0], streams := [], trace := [] }

/-- The bytes of "hello". -/
def hello : List Byte := [104, 101, 108, 108, 111]

/-- A file open write-only for appending (`O_WRONLY | O_APPEND`, 1 + 1024). -/
def appendFile : OpenFile :=
  { flags := 1025, seekable := true, ioerr := false, bytes := [], pos := 0 }

/-- The file `appendFile`, open as descriptor 3. -/
def appendWorld : World :=
  { files := [appendFile], fdtab := [none, none, none, some 0], streams := [], trace := [] }

/-- A regular file holding "hello", open read-write, with the offset at 2. -/
def helloFile : OpenFile :=
  { flags := 2, seekable := true, ioerr := false, bytes := hello, pos := 2 }

/-- The stream of an instance attached to `helloFile`. -/
def helloStream : Stream :=
  { fd := 0, mode := "r+", err := false, vbuf := 0 }

/-- The world of an instance attached to descriptor 3, which refers to `helloFile`;
descriptor 0 is the duplicate under the stream. -/
def helloWorld : World :=
  { files := [helloFile], fdtab := [some 0, none, none, some 0], streams := [some helloStream],
    trace := [] }

/-- The fields of the instance attached in `helloWorld`. -/
def helloInstance : FilebufIO :=
  { itsSeekable := true, itsReadable := true, itsWritable := true, itsBuffer := none,
    itsBufSize := 0, itsFileDesc := 3, itsDupFileDesc := 0, itsStream := some 0,
    itsFileName := "" }

/-- A pipe holding four bytes, open read-only as descriptor 3. -/
def pipeWorld : World :=
  { files := [{ flags := 0, seekable := false, ioerr := false, bytes := [1, 2, 3, 4], pos := 0 }],
    fdtab := [none, none, none, some 0], streams := [], trace := [] }

/-- A file whose open flags have both access-mode bits set (`O_WRONLY | O_RDWR`, 3). -/
def bothBitsFile : OpenFile :=
  { flags := 3, seekable := true, ioerr := false, bytes := [], pos := 0 }

/-- The file `bothBitsFile`, open as descriptor 3. -/
def bothBitsWorld : World :=
  { files := [bothBitsFile], fdtab := [none, none, none, some 0], streams := [], trace := [] }

/-- A file on a failing device, open read-only as descriptor 3. -/
def faultyWorld : World :=
  { files := [{ flags := 0, seekable := true, ioerr := true, bytes := [1, 2, 3, 4], pos := 0 }],
    fdtab := [none, none, none, some 0], streams := [], trace := [] }

end Casacore

/-! ## Lemmas on the model -/

namespace Casacore

section monad

variable {α β : Type}

@[simp] theorem andThen_ret (a : α) (x : FilebufIO) (w : World)
    (k : α → FilebufIO → World → Outcome β) : (Outcome.ret a x w).andThen k = k a x w := rfl

@[simp] theorem andThen_raise (e : AipsError) (x : FilebufIO) (w : World)
    (k : α → FilebufIO → World → Outcome β) :
    (Outcome.raise e x w : Outcome α).andThen k = Outcome.raise e x w := rfl

@[simp] theorem andThen_undefined (k : α → FilebufIO → World → Outcome β) :
    (Outcome.undefined : Outcome α).andThen k = Outcome.undefined := rfl

@[simp] theorem bind_run (m : M α) (k : α → M β) (x : FilebufIO) (w : World) :
    (m >>= k) x w = (m x w).andThen k := rfl

@[simp] theorem pure_run (a : α) (x : FilebufIO) (w : World) :
    (pure a : M α) x w = Outcome.ret a x w := rfl

@[simp] theorem map_run (f : α → β) (m : M α) (x : FilebufIO) (w : World) :
    (f <$> m) x w = (m x w).andThen fun a x1 w1 => Outcome.ret (f a) x1 w1 := rfl

@[simp] theorem discard_run (m : M α) (x : FilebufIO) (w : World) :
    (discard m) x w = (m x w).andThen fun _ x1 w1 => Outcome.ret () x1 w1 := rfl

@[simp] theorem this_run (x : FilebufIO) (w : World) : this x w = Outcome.ret x x w := rfl

@[simp] theorem assign_run (f : FilebufIO → FilebufIO) (x : FilebufIO) (w : World) :
    assign f x w = Outcome.ret () (f x) w := rfl

@[simp] theorem raise_run (e : AipsError) (x : FilebufIO) (w : World) :
    (raise e : M α) x w = Outcome.raise e x w := rfl

@[simp] theorem sys_run (f : World → α × World) (x : FilebufIO) (w : World) :
    sys f x w = Outcome.ret (f w).1 x (f w).2 := rfl

theorem stdio_some (f : World → Option (α × World)) (x : FilebufIO) (w w1 : World) (a : α)
    (h : f w = some (a, w1)) : stdio f x w = Outcome.ret a x w1 := by
  simp [stdio, h]

theorem stdio_none (f : World → Option (α × World)) (x : FilebufIO) (w : World)
    (h : f w = none) : stdio f x w = Outcome.undefined := by
  simp [stdio, h]

end monad

section world

@[simp] theorem log_files (w : World) (c : Call) : (w.log c).files = w.files := rfl
@[simp] theorem log_fdtab (w : World) (c : Call) : (w.log c).fdtab = w.fdtab := rfl
@[simp] theorem log_streams (w : World) (c : Call) : (w.log c).streams = w.streams := rfl
@[simp] theorem log_trace (w : World) (c : Call) : (w.log c).trace = w.trace ++ [c] := rfl
@[simp] theorem setFile_fdtab (w : World) (i : Nat) (f : OpenFile) :
    (w.setFile i f).fdtab = w.fdtab := rfl
@[simp] theorem setFile_streams (w : World) (i : Nat) (f : OpenFile) :
    (w.setFile i f).streams = w.streams := rfl
@[simp] theorem setFile_trace (w : World) (i : Nat) (f : OpenFile) :
    (w.setFile i f).trace = w.trace := rfl
@[simp] theorem setStream_files (w : World) (n : Nat) (s : Option Stream) :
    (w.setStream n s).files = w.files := rfl
@[simp] theorem setStream_fdtab (w : World) (n : Nat) (s : Option Stream) :
    (w.setStream n s).fdtab = w.fdtab := rfl
@[simp] theorem setStream_trace (w : World) (n : Nat) (s : Option Stream) :
    (w.setStream n s).trace = w.trace := rfl
@[simp] theorem setStream_length (w : World) (n : Nat) (s : Option Stream) :
    (w.setStream n s).streams.length = w.streams.length := by simp [World.setStream]
@[simp] theorem addStream_files (w : World) (s : Stream) : (w.addStream s).files = w.files := rfl
@[simp] theorem addStream_fdtab (w : World) (s : Stream) : (w.addStream s).fdtab = w.fdtab := rfl
@[simp] theorem addStream_trace (w : World) (s : Stream) : (w.addStream s).trace = w.trace := rfl
@[simp] theorem addStream_length (w : World) (s : Stream) :
    (w.addStream s).streams.length = w.streams.length + 1 := by simp [World.addStream]
@[simp] theorem setFd_files (w : World) (j : Nat) (v : Option Nat) :
    (w.setFd j v).files = w.files := rfl
@[simp] theorem setFd_streams (w : World) (j : Nat) (v : Option Nat) :
    (w.setFd j v).streams = w.streams := rfl
@[simp] theorem setFd_trace (w : World) (j : Nat) (v : Option Nat) :
    (w.setFd j v).trace = w.trace := rfl
@[simp] theorem setFile_length (w : World) (i : Nat) (f : OpenFile) :
    (w.setFile i f).files.length = w.files.length := by simp [World.setFile]

@[simp] theorem file_log (w : World) (c : Call) (fd : Int) : (w.log c).file fd = w.file fd := rfl
@[simp] theorem file_setStream (w : World) (n : Nat) (s : Option Stream) (fd : Int) :
    (w.setStream n s).file fd = w.file fd := rfl
@[simp] theorem file_addStream (w : World) (s : Stream) (fd : Int) :
    (w.addStream s).file fd = w.file fd := rfl
@[simp] theorem stream_log (w : World) (c : Call) (h : Option Nat) :
    (w.log c).stream h = w.stream h := rfl
@[simp] theorem stream_setFile (w : World) (i : Nat) (f : OpenFile) (h : Option Nat) :
    (w.setFile i f).stream h = w.stream h := rfl
@[simp] theorem stream_setFd (w : World) (j : Nat) (v : Option Nat) (h : Option Nat) :
    (w.setFd j v).stream h = w.stream h := rfl

@[simp] theorem stream_none (w : World) : w.stream none = none := rfl

theorem entry_set {α : Type} (l : List (Option α)) (j k : Nat) (v : Option α) :
    entry (l.set j v) k = if k = j ∧ j < l.length then v else entry l k := by
  unfold entry
  rw [List.getElem?_set]
  by_cases hk : k = j
  · subst hk
    by_cases hlt : k < l.length
    · simp [hlt]; cases v <;> rfl
    · simp [hlt, List.getElem?_eq_none (Nat.le_of_not_lt hlt)]
  · have : ¬ j = k := fun e => hk e.symm
    simp [hk, this]

theorem entry_beyond {α : Type} (l : List (Option α)) (k : Nat) (h : l.length ≤ k) :
    entry l k = none := by
  unfold entry
  rw [List.getElem?_eq_none h]

theorem entry_append_left {α : Type} (l r : List (Option α)) (k : Nat) (h : k < l.length) :
    entry (l ++ r) k = entry l k := by
  unfold entry
  rw [List.getElem?_append_left h]

theorem entry_concat {α : Type} (l : List (Option α)) (k : Nat) (v : Option α) :
    entry (l ++ [v]) k = if k = l.length then v else entry l k := by
  by_cases hk : k = l.length
  · subst hk
    unfold entry
    simp
    cases v <;> rfl
  · simp only [hk, if_false]
    by_cases hlt : k < l.length
    · exact entry_append_left l [v] k hlt
    · rw [entry_beyond l k (by omega), entry_beyond _ k (by simp; omega)]

theorem entry_pad (l : List (Option Nat)) (m k : Nat) :
    entry (l ++ List.replicate m none) k = entry l k := by
  by_cases hlt : k < l.length
  · exact entry_append_left l _ k hlt
  · rw [entry_beyond l k (by omega)]
    unfold entry
    rw [List.getElem?_append_right (by omega), List.getElem?_replicate]
    by_cases hm : k - l.length < m <;> simp [hm]

theorem entry_putSlot (l : List (Option Nat)) (j k : Nat) (v : Option Nat) :
    entry (putSlot l j v) k = if k = j then v else entry l k := by
  unfold putSlot
  by_cases hj : j < l.length
  · simp only [hj, if_true, entry_set, and_true]
  · simp only [hj, if_false, entry_concat, entry_pad]
    have : (l ++ List.replicate (j - l.length) none).length = j := by simp; omega
    rw [this]

/-- Setting a descriptor changes what that descriptor refers to, and no other. -/
theorem file_setFd (w : World) (j : Nat) (v : Option Nat) (fd : Int) :
    (w.setFd j v).file fd =
      if fd = (j : Int) then
        (match v with
          | some i => (w.files[i]?).map fun f => (i, f)
          | none => none)
      else w.file fd := by
  unfold World.file World.setFd
  by_cases hneg : fd < 0
  · have : fd ≠ (j : Int) := by omega
    simp [hneg, this]
  · simp only [hneg, if_false, entry_putSlot]
    by_cases hj : fd = (j : Int)
    · subst hj; simp
    · have : fd.toNat ≠ j := by omega
      simp [hj, this]

/-- Replacing an open file description shows through every descriptor that refers to it. -/
theorem file_setFile (w : World) (i : Nat) (g : OpenFile) (fd : Int) :
    (w.setFile i g).file fd = (w.file fd).map fun p => (p.1, if p.1 = i then g else p.2) := by
  unfold World.file World.setFile
  by_cases hneg : fd < 0
  · simp [hneg]
  · simp only [hneg, if_false]
    cases hk : entry w.fdtab fd.toNat with
    | none => simp
    | some k =>
      simp only [List.getElem?_set]
      by_cases hki : i = k
      · subst hki
        by_cases hlt : i < w.files.length
        · simp [hlt]
        · simp [hlt, List.getElem?_eq_none (Nat.le_of_not_lt hlt)]
      · have : ¬ k = i := fun e => hki e.symm
        simp only [hki, if_false, Option.map_map]
        congr 1
        funext f
        simp [this]

theorem stream_setStream (w : World) (n m : Nat) (v : Option Stream) :
    (w.setStream n v).stream (some m) =
      if m = n ∧ n < w.streams.length then v.map fun s => (n, s) else w.stream (some m) := by
  unfold World.stream World.setStream
  simp only [entry_set]
  by_cases hmn : m = n
  · subst hmn
    by_cases hlt : m < w.streams.length <;> simp [hlt]
  · simp [hmn]

theorem stream_addStream (w : World) (m : Nat) (s : Stream) :
    (w.addStream s).stream (some m) =
      if m = w.streams.length then some (m, s) else w.stream (some m) := by
  unfold World.stream World.addStream
  simp only [entry_concat]
  by_cases hm : m = w.streams.length <;> simp [hm]

theorem stream_lt (w : World) (n m : Nat) (s : Stream) (h : w.stream (some n) = some (m, s)) :
    m = n ∧ n < w.streams.length := by
  unfold World.stream at h
  by_cases hlt : n < w.streams.length
  · cases hs : entry w.streams n with
    | none => simp [hs] at h
    | some t => simp [hs] at h; exact ⟨h.1.symm, hlt⟩
  · simp [entry_beyond _ _ (Nat.le_of_not_lt hlt)] at h

theorem file_files (w : World) (fd : Int) (i : Nat) (f : OpenFile)
    (h : w.file fd = some (i, f)) : w.files[i]? = some f := by
  unfold World.file at h
  by_cases hneg : fd < 0
  · simp [hneg] at h
  · simp only [hneg, if_false] at h
    cases hk : entry w.fdtab fd.toNat with
    | none => simp [hk] at h
    | some k =>
      simp only [hk] at h
      cases hf : w.files[k]? with
      | none => simp [hf] at h
      | some g =>
        simp [hf] at h
        obtain ⟨h1, h2⟩ := h
        subst h1; subst h2; exact hf

theorem freeSlot_free (l : List (Option Nat)) : entry l (freeSlot l) = none := by
  induction l with
  | nil => rfl
  | cons a t ih =>
    cases a with
    | none => simp [freeSlot, entry]
    | some v => simpa [freeSlot, entry] using ih

/-- An open descriptor is not the one `dup` hands out. -/
theorem file_ne_freeSlot (w : World) (fd : Int) (i : Nat) (f : OpenFile)
    (h : w.file fd = some (i, f)) : fd ≠ (freeSlot w.fdtab : Int) := by
  intro e
  unfold World.file at h
  subst e
  simp [freeSlot_free] at h

theorem set_self {α : Type} (l : List α) (k : Nat) (a : α) (h : l[k]? = some a) :
    l.set k a = l := by
  induction l generalizing k with
  | nil => rfl
  | cons b t ih =>
    cases k with
    | zero => simp at h; simp [h]
    | succ m => simp at h; simp [ih m h]

theorem entry_get {α : Type} (l : List (Option α)) (k : Nat) (a : α) (h : entry l k = some a) :
    l[k]? = some (some a) := by
  unfold entry at h
  split at h
  · rename_i b hb; simp at h; subst h; exact hb
  · exact absurd h (by simp)

theorem World.Open.handle {w : World} {h : Option Nat} {n i : Nat} {s : Stream} {f : OpenFile}
    (o : w.Open h n s i f) : h = some n := by
  have h1 := o.stream
  cases h with
  | none => simp at h1
  | some m => rw [(stream_lt w m n s h1).1]

theorem World.Open.slot {w : World} {h : Option Nat} {n i : Nat} {s : Stream} {f : OpenFile}
    (o : w.Open h n s i f) : w.streams[n]? = some (some s) := by
  have h1 := o.stream
  rw [o.handle] at h1
  unfold World.stream at h1
  cases he : entry w.streams n with
  | none => simp [he] at h1
  | some t =>
    simp [he] at h1
    subst h1
    exact entry_get _ _ _ he

theorem stdioCall_open {α : Type} {w : World} {h : Option Nat} {n i : Nat} {s : Stream}
    {f : OpenFile} (o : w.Open h n s i f) (c : Call)
    (step : Stream → OpenFile → α × Stream × OpenFile) (lost : Stream → α × Stream) :
    stdioCall h c w step lost
      = some ((step s f).1, w.upd [c] n (step s f).2.1 i (step s f).2.2) := by
  unfold stdioCall
  rw [o.stream]
  simp only [o.file]
  rfl

theorem stdioCall_none {α : Type} (w : World) (h : Option Nat) (c : Call)
    (step : Stream → OpenFile → α × Stream × OpenFile) (lost : Stream → α × Stream)
    (hs : w.stream h = none) : stdioCall h c w step lost = none := by
  unfold stdioCall
  rw [hs]

theorem upd_upd (w : World) (cs ds : List Call) (n i : Nat) (s t : Stream) (f g : OpenFile) :
    (w.upd cs n s i f).upd ds n t i g = w.upd (cs ++ ds) n t i g := by
  simp [World.upd, List.set_set]

theorem upd_log (w : World) (cs : List Call) (c : Call) (n i : Nat) (s : Stream) (f : OpenFile) :
    (w.upd cs n s i f).log c = w.upd (cs ++ [c]) n s i f := by
  simp [World.upd, World.log]

theorem World.Open.upd {w : World} {h : Option Nat} {n i : Nat} {s : Stream} {f : OpenFile}
    (o : w.Open h n s i f) (cs : List Call) (t : Stream) (g : OpenFile) (hfd : t.fd = s.fd) :
    (w.upd cs n t i g).Open h n t i g := by
  have hn := o.handle
  subst hn
  have hlt := (stream_lt w n n s o.stream).2
  have hfi := file_files w s.fd i f o.file
  constructor
  · have := stream_setStream w n n (some t)
    simpa [hlt, World.setStream, World.stream, World.upd] using this
  · have := file_setFile w i g s.fd
    rw [o.file] at this
    rw [hfd]
    simpa [World.setFile, World.file, World.upd] using this

theorem World.Open.upd_self {w : World} {h : Option Nat} {n i : Nat} {s : Stream} {f : OpenFile}
    (o : w.Open h n s i f) (cs : List Call) :
    w.upd cs n s i f = { w with trace := w.trace ++ cs } := by
  unfold World.upd
  rw [set_self _ _ _ (file_files w s.fd i f o.file), set_self _ _ _ o.slot]

theorem file_upd (w : World) (cs : List Call) (n i : Nat) (s : Stream) (g : OpenFile) (fd : Int) :
    (w.upd cs n s i g).file fd = (w.file fd).map fun p => (p.1, if p.1 = i then g else p.2) := by
  have := file_setFile w i g fd
  simpa [World.setFile, World.file, World.upd] using this

end world

end Casacore

/-! ## Lemmas on the member functions -/

namespace Casacore
open FilebufIO

section members

variable {x : FilebufIO} {w : World} {n i : Nat} {s : Stream} {f : OpenFile}

theorem doSeek_open (o : w.Open x.itsStream n s i f) (offset : Int) (dir : SeekOption) :
    doSeek offset dir x w
      = Outcome.ret (tell (seekFile f offset (whenceOf dir))) x
          (w.upd [Call.fseeko x.itsStream offset (whenceOf dir), Call.ftello x.itsStream]
            n s i (seekFile f offset (whenceOf dir))) := by
  have hne : x.itsStream ≠ none := by rw [o.handle]; simp
  have step1 : ∀ wh, fseeko x.itsStream offset wh w
      = some (if f.seekable = true ∧ 0 ≤ seekTarget f offset wh then 0 else -1,
          w.upd [Call.fseeko x.itsStream offset wh] n s i (seekFile f offset wh)) := by
    intro wh
    unfold fseeko seekFile
    rw [stdioCall_open o]
    by_cases hc : f.seekable = true ∧ 0 ≤ seekTarget f offset wh <;> simp [hc]
  have step2 : ∀ wh, ftello x.itsStream
        (w.upd [Call.fseeko x.itsStream offset wh] n s i (seekFile f offset wh))
      = some (tell (seekFile f offset wh),
          w.upd [Call.fseeko x.itsStream offset wh, Call.ftello x.itsStream] n s i
            (seekFile f offset wh)) := by
    intro wh
    unfold ftello
    rw [stdioCall_open (o.upd _ s _ rfl), upd_upd]
    rfl
  cases dir <;>
    simp [doSeek, hne, stdio, step1, step2, whenceOf]

theorem seekFile_cur_zero (g : OpenFile) : seekFile g 0 SEEK_CUR = g := by
  have e : (if SEEK_CUR = SEEK_SET then (0 : Int)
      else if SEEK_CUR = SEEK_END then (g.bytes.length : Int) else (g.pos : Int)) + 0
      = (g.pos : Int) := by
    simp [SEEK_CUR, SEEK_SET, SEEK_END]
  unfold seekFile seekTarget
  rw [e]
  by_cases hs : g.seekable = true ∧ (0 : Int) ≤ (g.pos : Int)
  · rw [if_pos hs, Int.toNat_ofNat]
  · rw [if_neg hs]

theorem seekFile_end_zero (g : OpenFile) (hs : g.seekable = true) :
    seekFile g 0 SEEK_END = { g with pos := g.bytes.length } := by
  unfold seekFile seekTarget
  simp [hs, SEEK_SET, SEEK_END]

theorem seekFile_set (g : OpenFile) (hs : g.seekable = true) (p : Nat) :
    seekFile g (p : Int) SEEK_SET = { g with pos := p } := by
  unfold seekFile seekTarget
  simp [hs, SEEK_SET]

theorem length_open (o : w.Open x.itsStream n s i f) (hs : f.seekable = true) :
    FilebufIO.length x w
      = Outcome.ret (f.bytes.length : Int) x
          (w.upd [Call.fseeko x.itsStream 0 SEEK_CUR, Call.ftello x.itsStream,
                  Call.fseeko x.itsStream 0 SEEK_END, Call.ftello x.itsStream,
                  Call.fseeko x.itsStream (f.pos : Int) SEEK_SET, Call.ftello x.itsStream]
            n s i f) := by
  have o1 := o.upd [Call.fseeko x.itsStream 0 SEEK_CUR, Call.ftello x.itsStream] s f rfl
  have o2 := o1.upd [Call.fseeko x.itsStream 0 SEEK_END, Call.ftello x.itsStream] s
    { f with pos := f.bytes.length } rfl
  unfold FilebufIO.length seek
  simp only [bind_run]
  rw [doSeek_open o]
  simp only [whenceOf, seekFile_cur_zero, andThen_ret, bind_run]
  rw [doSeek_open o1]
  simp only [whenceOf, seekFile_end_zero f hs, andThen_ret]
  have hlen : ¬ tell { f with pos := f.bytes.length } < 0 := by simp [tell, hs]
  simp only [hlen, if_false, bind_run, discard_run]
  have ht : tell f = (f.pos : Int) := by simp [tell, hs]
  rw [ht, doSeek_open o2]
  have e3 : seekFile { f with pos := f.bytes.length } (f.pos : Int) SEEK_SET = f := by
    exact seekFile_set { f with pos := f.bytes.length } hs f.pos
  have e4 : tell { f with pos := f.bytes.length } = (f.bytes.length : Int) := by
    simp [tell, hs]
  simp only [whenceOf, e3, e4, upd_upd, andThen_ret, List.cons_append, List.nil_append, pure_run]

theorem read_open (o : w.Open x.itsStream n s i f) (hr : x.itsReadable = true) (size : Int)
    (t : Bool) :
    FilebufIO.read size t x w
      = if (freadStep (toSizeT size) s f).2.1.err = true ∧ t = true then
          Outcome.raise AipsError.badValue x
            (w.upd [Call.fread x.itsStream 1 (toSizeT size), Call.ferror x.itsStream] n
              (freadStep (toSizeT size) s f).2.1 i (freadStep (toSizeT size) s f).2.2)
        else if (freadStep (toSizeT size) s f).1.length < toSizeT size ∧ t = true then
          Outcome.raise (AipsError.shortRead (freadStep (toSizeT size) s f).1.length size) x
            (w.upd [Call.fread x.itsStream 1 (toSizeT size), Call.ferror x.itsStream] n
              (freadStep (toSizeT size) s f).2.1 i (freadStep (toSizeT size) s f).2.2)
        else
          Outcome.ret (toInt64 (freadStep (toSizeT size) s f).1.length,
              (freadStep (toSizeT size) s f).1) x
            (w.upd [Call.fread x.itsStream 1 (toSizeT size), Call.ferror x.itsStream] n
              (freadStep (toSizeT size) s f).2.1 i (freadStep (toSizeT size) s f).2.2) := by
  have step1 : fread (toSizeT size) x.itsStream w
      = some ((freadStep (toSizeT size) s f).1,
          w.upd [Call.fread x.itsStream 1 (toSizeT size)] n
            (freadStep (toSizeT size) s f).2.1 i (freadStep (toSizeT size) s f).2.2) := by
    unfold fread
    rw [stdioCall_open o]
  have hfd : (freadStep (toSizeT size) s f).2.1.fd = s.fd := by
    unfold freadStep
    split <;> rfl
  have step2 : ferror x.itsStream
        (w.upd [Call.fread x.itsStream 1 (toSizeT size)] n
            (freadStep (toSizeT size) s f).2.1 i (freadStep (toSizeT size) s f).2.2)
      = some (if (freadStep (toSizeT size) s f).2.1.err = true then 1 else 0,
          w.upd [Call.fread x.itsStream 1 (toSizeT size), Call.ferror x.itsStream] n
            (freadStep (toSizeT size) s f).2.1 i (freadStep (toSizeT size) s f).2.2) := by
    unfold ferror
    rw [stdioCall_open (o.upd _ _ _ hfd), upd_upd]
    rfl
  unfold FilebufIO.read
  simp only [bind_run, this_run, andThen_ret, hr, Bool.not_true, Bool.false_eq_true, if_false,
    pure_run, stdio, step1, step2]
  by_cases he : (freadStep (toSizeT size) s f).2.1.err = true
  · by_cases ht : t = true
    · simp [he, ht]
    · simp [he, ht]
  · by_cases hl : (freadStep (toSizeT size) s f).1.length < toSizeT size ∧ t = true
    · simp [he, hl]
    · simp [he, hl]

theorem write_open (o : w.Open x.itsStream n s i f) (hw : x.itsWritable = true) (size : Int)
    (buf : List Byte) :
    FilebufIO.write size buf x w
      = if size > 0 then
          (if (fwriteStep buf (toSizeT size) s f).1 ≠ 1 then
            Outcome.raise AipsError.writeError x
              (w.upd [Call.fwrite x.itsStream (toSizeT size) 1] n
                (fwriteStep buf (toSizeT size) s f).2.1 i (fwriteStep buf (toSizeT size) s f).2.2)
          else
            Outcome.ret () x
              (w.upd [Call.fwrite x.itsStream (toSizeT size) 1] n
                (fwriteStep buf (toSizeT size) s f).2.1 i (fwriteStep buf (toSizeT size) s f).2.2))
        else Outcome.ret () x w := by
  have step1 : fwrite buf (toSizeT size) x.itsStream w
      = some ((fwriteStep buf (toSizeT size) s f).1,
          w.upd [Call.fwrite x.itsStream (toSizeT size) 1] n
            (fwriteStep buf (toSizeT size) s f).2.1 i (fwriteStep buf (toSizeT size) s f).2.2) := by
    unfold fwrite
    rw [stdioCall_open o]
  unfold FilebufIO.write
  simp only [bind_run, this_run, andThen_ret, hw, Bool.not_true, Bool.false_eq_true, if_false,
    pure_run]
  by_cases hs : size > 0
  · by_cases h1 : (fwriteStep buf (toSizeT size) s f).1 = 1
    · simp [hs, stdio, step1, h1]
    · simp [hs, stdio, step1, h1]
  · simp [hs]

theorem flush_open (o : w.Open x.itsStream n s i f) :
    flush x w = Outcome.ret () x (w.upd [Call.fflush x.itsStream] n s i f) := by
  have hne : x.itsStream ≠ none := by rw [o.handle]; simp
  have step1 : fflush x.itsStream w = some ((), w.upd [Call.fflush x.itsStream] n s i f) := by
    unfold fflush
    rw [stdioCall_open o]
  simp [flush, hne, stdio, step1]

theorem resync_open (o : w.Open x.itsStream n s i f) :
    resync x w
      = Outcome.ret () x
          (w.upd [Call.rewind x.itsStream] n (rewindStep s f).2.1 i (rewindStep s f).2.2) := by
  have step1 : rewind x.itsStream w
      = some ((), w.upd [Call.rewind x.itsStream] n (rewindStep s f).2.1 i (rewindStep s f).2.2) := by
    unfold rewind
    rw [stdioCall_open o]
  simp [resync, stdio, step1]

theorem freadStep_ok (count : Nat) (s : Stream) (f : OpenFile) (hm : canRead s.mode = true)
    (hio : f.ioerr = false) :
    freadStep count s f
      = (f.rest.take count, s, { f with pos := f.pos + (f.rest.take count).length }) := by
  unfold freadStep OpenFile.rest
  rw [if_pos ⟨hm, hio⟩]

theorem fwriteStep_ok (buf : List Byte) (size : Nat) (s : Stream) (f : OpenFile)
    (hm : canWrite s.mode = true) (hio : f.ioerr = false) :
    fwriteStep buf size s f
      = (1, s, { f with bytes := overwrite f.bytes f.pos (buf.take size),
                        pos := f.pos + (buf.take size).length }) := by
  unfold fwriteStep
  rw [if_pos ⟨hm, hio⟩]

theorem toSizeT_of_nonneg (z : Int) (h0 : 0 ≤ z) (h1 : z < 2 ^ 63) : toSizeT z = z.toNat := by
  unfold toSizeT
  rw [Int.emod_eq_of_lt h0 (by omega)]

theorem toInt64_of_lt (m : Nat) (h : m < 2 ^ 63) : toInt64 m = (m : Int) := by
  unfold toInt64
  have h1 : m % 2 ^ 64 = m := Nat.mod_eq_of_lt (by omega)
  rw [h1, if_pos h]

theorem fillRWFlags_run (x : FilebufIO) (w : World) (d : Int) (i : Nat) (f : OpenFile)
    (hfd : w.file d = some (i, f)) :
    fillRWFlags d x w
      = Outcome.ret ()
          { x with itsReadable := readableFlag f.flags, itsWritable := writableFlag f.flags }
          (w.log (Call.fcntl d)) := by
  unfold fillRWFlags readableFlag writableFlag
  simp only [bind_run, assign_run, andThen_ret, sys_run, fcntl_GETFL, hfd]
  by_cases h2 : cAnd (f.flags : Int) O_RDWR = O_RDWR
  · simp [h2]
  · by_cases h1 : cAnd (f.flags : Int) O_WRONLY = O_WRONLY
    · simp [h2, h1]
    · simp [h2, h1]

theorem fillSeekable_open (o : w.Open x.itsStream n s i f) :
    fillSeekable x w
      = Outcome.ret () { x with itsSeekable := f.seekable }
          (w.upd [Call.fseeko x.itsStream 0 SEEK_CUR, Call.ftello x.itsStream] n s i f) := by
  unfold fillSeekable seek
  simp only [bind_run]
  rw [doSeek_open o]
  simp only [whenceOf, seekFile_cur_zero, andThen_ret, assign_run]
  have : decide (tell f ≥ 0) = f.seekable := by
    unfold tell
    cases hs : f.seekable <;> simp
  rw [this]

/-- What `attach` does on a descriptor that is open: it returns, with the fields
of `attachedFields`, and the new stream is open over the descriptor's file, rewound
when the file can seek. -/
theorem attach_open (x : FilebufIO) (w : World) (d : Int) (k : Nat) (i : Nat) (f : OpenFile)
    (hfd : w.file d = some (i, f)) :
    ∃ w1, attach d k x w = Outcome.ret () (attachedFields x w d k f) w1
      ∧ w1.Open (some w.streams.length) w.streams.length
          { fd := (freeSlot w.fdtab : Int), mode := attachMode (f.flags : Int), err := false,
            vbuf := k }
          i { f with pos := if f.seekable = true then 0 else f.pos }
      ∧ w1.file d = some (i, { f with pos := if f.seekable = true then 0 else f.pos })
      ∧ Call.fdopen (freeSlot w.fdtab : Int) (attachMode (f.flags : Int)) ∈ w1.trace := by
  have hne := file_ne_freeSlot w d i f hfd
  have hfi := file_files w d i f hfd
  -- the world after fcntl, dup and fdopen
  obtain ⟨w3, hw3⟩ : ∃ w3, w3 = ((((w.log (Call.fcntl d)).log (Call.dup d)).setFd
      (freeSlot w.fdtab) (some i)).log
        (Call.fdopen (freeSlot w.fdtab : Int) (attachMode (f.flags : Int)))).addStream
      { fd := (freeSlot w.fdtab : Int), mode := attachMode (f.flags : Int), err := false,
        vbuf := 0 } := ⟨_, rfl⟩
  have o3 : w3.Open (some w.streams.length) w.streams.length
      { fd := (freeSlot w.fdtab : Int), mode := attachMode (f.flags : Int), err := false,
        vbuf := 0 } i f := by
    subst hw3
    constructor
    · simp [stream_addStream]
    · simp [file_setFd, hfi]
  have hd3 : w3.file d = some (i, f) := by
    subst hw3
    simp [file_setFd, hne, hfd]
  have hprefix : (w.log (Call.fcntl d)).file d = some (i, f) := by simpa using hfd
  have hdupfile : (((w.log (Call.fcntl d)).log (Call.dup d)).setFd (freeSlot w.fdtab)
      (some i)).file (freeSlot w.fdtab : Int) = some (i, f) := by
    simp [file_setFd, hfi]
  -- rewind
  have oR := o3.upd [Call.rewind (some w.streams.length)]
    { fd := (freeSlot w.fdtab : Int), mode := attachMode (f.flags : Int), err := false,
      vbuf := 0 } { f with pos := if f.seekable = true then 0 else f.pos } rfl
  have hrew : rewind (some w.streams.length) w3
      = some ((), w3.upd [Call.rewind (some w.streams.length)] w.streams.length
          { fd := (freeSlot w.fdtab : Int), mode := attachMode (f.flags : Int), err := false,
            vbuf := 0 } i { f with pos := if f.seekable = true then 0 else f.pos }) := by
    unfold rewind
    rw [stdioCall_open o3]
    rfl
  unfold attach
  simp only [bind_run, assign_run, andThen_ret, sys_run, this_run, fcntl_GETFL, hfd, dup,
    hprefix, fdopen, hdupfile, log_fdtab, log_streams, setFd_streams]
  rw [← attachMode, ← hw3]
  simp only [stdio, hrew, andThen_ret]
  by_cases hk : k = 0
  · subst hk
    simp only [ne_eq, not_true_eq_false, if_false, pure_run, andThen_ret, bind_run]
    rw [fillRWFlags_run _ _ d i { f with pos := if f.seekable = true then 0 else f.pos }
      (by rw [file_upd, hd3]; simp)]
    simp only [andThen_ret, upd_log]
    have oF := o3.upd ([Call.rewind (some w.streams.length)] ++ [Call.fcntl d])
      { fd := (freeSlot w.fdtab : Int), mode := attachMode (f.flags : Int), err := false,
        vbuf := 0 } { f with pos := if f.seekable = true then 0 else f.pos } rfl
    rw [fillSeekable_open oF]
    refine ⟨_, rfl, ?_, ?_, ?_⟩
    · rw [upd_upd]
      exact o3.upd _ _ _ rfl
    · rw [upd_upd, file_upd, hd3]; simp
    · rw [upd_upd]
      subst hw3
      simp [World.upd]
  · simp only [ne_eq, hk, not_false_eq_true, if_true, bind_run, assign_run, andThen_ret,
      this_run]
    have hvb : setvbuf (some w.streams.length) k
        (w3.upd [Call.rewind (some w.streams.length)] w.streams.length
          { fd := (freeSlot w.fdtab : Int), mode := attachMode (f.flags : Int), err := false,
            vbuf := 0 } i { f with pos := if f.seekable = true then 0 else f.pos })
        = some ((), w3.upd [Call.rewind (some w.streams.length),
              Call.setvbuf (some w.streams.length) k] w.streams.length
            { fd := (freeSlot w.fdtab : Int), mode := attachMode (f.flags : Int), err := false,
              vbuf := k } i { f with pos := if f.seekable = true then 0 else f.pos }) := by
      unfold setvbuf
      rw [stdioCall_open oR, upd_upd]
      rfl
    simp only [stdio, hvb, andThen_ret, bind_run]
    rw [fillRWFlags_run _ _ d i { f with pos := if f.seekable = true then 0 else f.pos }
      (by rw [file_upd, hd3]; simp)]
    simp only [andThen_ret, upd_log]
    have oF := o3.upd ([Call.rewind (some w.streams.length),
        Call.setvbuf (some w.streams.length) k] ++ [Call.fcntl d])
      { fd := (freeSlot w.fdtab : Int), mode := attachMode (f.flags : Int), err := false,
        vbuf := k } { f with pos := if f.seekable = true then 0 else f.pos } rfl
    rw [fillSeekable_open oF]
    simp only [attachedFields, ne_eq, hk, not_false_eq_true, if_true]
    refine ⟨_, rfl, ?_, ?_, ?_⟩
    · rw [upd_upd]
      exact o3.upd _ _ _ rfl
    · rw [upd_upd, file_upd, hd3]; simp
    · rw [upd_upd]
      subst hw3
      simp [World.upd]

theorem cAnd_val (a b : Int) :
    cAnd a b = ((Nat.land (a % 4294967296).toNat b.toNat : Nat) : Int) := rfl

/-- The two bit tests of `fillRWFlags` depend on the access-mode bits alone. -/
theorem cAnd_accmode (a : Int) :
    (cAnd a O_ACCMODE = O_RDONLY → cAnd a O_RDWR = 0 ∧ cAnd a O_WRONLY = 0)
    ∧ (cAnd a O_ACCMODE = O_WRONLY → cAnd a O_RDWR = 0 ∧ cAnd a O_WRONLY = 1)
    ∧ (cAnd a O_ACCMODE = O_RDWR → cAnd a O_RDWR = 2 ∧ cAnd a O_WRONLY = 0) := by
  have e2 : ∀ m : Nat, Nat.land m 2 = Nat.land (Nat.land m 3) 2 := by
    intro m
    have c : (3 &&& 2 : Nat) = 2 := by decide
    show m &&& 2 = (m &&& 3) &&& 2
    rw [Nat.and_assoc, c]
  have e1 : ∀ m : Nat, Nat.land m 1 = Nat.land (Nat.land m 3) 1 := by
    intro m
    have c : (3 &&& 1 : Nat) = 1 := by decide
    show m &&& 1 = (m &&& 3) &&& 1
    rw [Nat.and_assoc, c]
  have t3 : (3 : Int).toNat = 3 := rfl
  have t2 : (2 : Int).toNat = 2 := rfl
  have t1 : (1 : Int).toNat = 1 := rfl
  simp only [cAnd_val, O_ACCMODE, O_RDONLY, O_WRONLY, O_RDWR, t3, t2, t1]
  refine ⟨?_, ?_, ?_⟩
  · intro h
    have h3 : Nat.land (a % 4294967296).toNat 3 = 0 := by exact_mod_cast h
    rw [e2, e1, h3]
    exact ⟨rfl, rfl⟩
  · intro h
    have h3 : Nat.land (a % 4294967296).toNat 3 = 1 := by exact_mod_cast h
    rw [e2, e1, h3]
    exact ⟨rfl, rfl⟩
  · intro h
    have h3 : Nat.land (a % 4294967296).toNat 3 = 2 := by exact_mod_cast h
    rw [e2, e1, h3]
    exact ⟨rfl, rfl⟩

theorem fclose_open (w : World) (h : Option Nat) (n : Nat) (s : Stream)
    (hs : w.stream h = some (n, s)) :
    ∃ w1, fclose h w = some ((), w1) ∧ w1.trace = w.trace ++ [Call.fclose h]
      ∧ w1.stream h = none ∧ ∀ fd, fd ≠ s.fd → w1.file fd = w.file fd := by
  have hh : h = some n := by
    cases h with
    | none => simp at hs
    | some m => rw [(stream_lt w m n s hs).1]
  subst hh
  have hlt := (stream_lt w n n s hs).2
  unfold fclose
  cases hf : w.file s.fd with
  | none =>
    simp only [hs, hf]
    refine ⟨_, rfl, by simp, ?_, ?_⟩
    · simp [stream_setStream, hlt]
    · intro fd _; simp
  | some p =>
    simp only [hs, hf]
    refine ⟨_, rfl, by simp, ?_, ?_⟩
    · simp [stream_setStream, hlt]
    · intro fd hne
      have h0 : ¬ s.fd < 0 := by
        intro hneg
        simp [World.file, hneg] at hf
      have : fd ≠ ((s.fd.toNat : Nat) : Int) := by
        rw [Int.toNat_of_nonneg (by omega)]; exact hne
      rw [file_setFd, if_neg this]
      simp

theorem close_trace (w : World) (fd : Int) :
    (close fd w).2.trace = w.trace ++ [Call.close fd] := by
  unfold close
  cases w.file fd <;> simp

theorem close_stream (w : World) (fd : Int) (h : Option Nat) :
    (close fd w).2.stream h = w.stream h := by
  unfold close
  cases w.file fd <;> simp

theorem overwrite_empty (b : List Byte) : overwrite [] 0 b = b := by
  simp [overwrite]

theorem attachMode_rdwr (a : Int) (h : cAnd a O_ACCMODE = O_RDWR) : attachMode a = "r+" := by
  unfold attachMode
  rw [h]
  decide

/-- The mode string of `attach` and the flags of `fillRWFlags` classify every
value of the open flags alike. -/
theorem flags_agree_with_mode (a : Int) :
    readableFlag a = canRead (attachMode a) ∧ writableFlag a = canWrite (attachMode a)
    ∧ (cAnd a O_ACCMODE = 3 → attachMode a = "r+") := by
  have e2 : ∀ m : Nat, Nat.land m 2 = Nat.land (Nat.land m 3) 2 := by
    intro m
    have c : (3 &&& 2 : Nat) = 2 := by decide
    show m &&& 2 = (m &&& 3) &&& 2
    rw [Nat.and_assoc, c]
  have e1 : ∀ m : Nat, Nat.land m 1 = Nat.land (Nat.land m 3) 1 := by
    intro m
    have c : (3 &&& 1 : Nat) = 1 := by decide
    show m &&& 1 = (m &&& 3) &&& 1
    rw [Nat.and_assoc, c]
  have t3 : (3 : Int).toNat = 3 := rfl
  have t2 : (2 : Int).toNat = 2 := rfl
  have t1 : (1 : Int).toNat = 1 := rfl
  have hle : Nat.land (a % 4294967296).toNat 3 ≤ 3 := Nat.and_le_right
  unfold readableFlag writableFlag attachMode
  simp only [cAnd_val, O_ACCMODE, O_RDONLY, O_WRONLY, O_RDWR, t3, t2, t1]
  rw [e2, e1]
  generalize Nat.land (a % 4294967296).toNat 3 = v at hle
  interval_cases v <;> decide

/-- The round trip on an attached instance: the stream is open for update over a
seekable, empty file at offset 0. -/
theorem round_trip_open (o : w.Open x.itsStream n s i f) (hr : x.itsReadable = true)
    (hw : x.itsWritable = true) (hmr : canRead s.mode = true) (hmw : canWrite s.mode = true)
    (herr : s.err = false) (hio : f.ioerr = false) (hs : f.seekable = true) (hp : f.pos = 0)
    (he : f.bytes = []) (b : List Byte) (hb : b ≠ []) (h64 : b.length < 2 ^ 63) :
    ∃ w1, (do
        FilebufIO.write (b.length : Int) b
        flush
        let p ← seek 0 SeekOption.Begin
        let r ← FilebufIO.read (b.length : Int) true
        let l ← FilebufIO.length
        pure (p, r, l) : M (Int × (Int × List Byte) × Int)) x w
      = Outcome.ret (0, ((b.length : Int), b), (b.length : Int)) x w1 := by
  have hsz : toSizeT (b.length : Int) = b.length := by
    rw [toSizeT_of_nonneg _ (by omega) (by exact_mod_cast h64)]; rfl
  have hlen : 0 < b.length := List.length_pos.mpr hb
  have hgt : (b.length : Int) > 0 := by exact_mod_cast hlen
  -- write
  have hws : fwriteStep b b.length s f
      = (1, s, { f with bytes := b, pos := b.length }) := by
    rw [fwriteStep_ok _ _ _ _ hmw hio, List.take_length, he, hp, overwrite_empty]
    simp
  have o1 := o.upd [Call.fwrite x.itsStream b.length 1] s { f with bytes := b, pos := b.length }
    rfl
  -- flush
  have o2 := o1.upd [Call.fflush x.itsStream] s { f with bytes := b, pos := b.length } rfl
  -- seek
  have hsk : seekFile { f with bytes := b, pos := b.length } 0 SEEK_SET
      = { f with bytes := b, pos := 0 } := seekFile_set { f with bytes := b, pos := b.length } hs 0
  have o3 := o2.upd [Call.fseeko x.itsStream 0 SEEK_SET, Call.ftello x.itsStream] s
    { f with bytes := b, pos := 0 } rfl
  -- read
  have hrs : freadStep b.length s { f with bytes := b, pos := 0 }
      = (b, s, { f with bytes := b, pos := b.length }) := by
    rw [freadStep_ok b.length s { f with bytes := b, pos := 0 } hmr hio]
    simp [OpenFile.rest]
  have o4 := o3.upd [Call.fread x.itsStream 1 b.length, Call.ferror x.itsStream] s
    { f with bytes := b, pos := b.length } rfl
  have h63 : toInt64 b.length = (b.length : Int) := toInt64_of_lt _ h64
  simp only [bind_run]
  rw [write_open o hw, hsz, hws]
  simp only [if_pos hgt, ne_eq, not_true_eq_false, if_false, andThen_ret, bind_run]
  rw [flush_open o1]
  simp only [andThen_ret, seek, bind_run]
  rw [doSeek_open o2]
  have ht0 : tell { f with bytes := b, pos := 0 } = 0 := by simp [tell, hs]
  simp only [whenceOf, hsk, ht0, andThen_ret, bind_run]
  rw [read_open o3 hr, hsz, hrs]
  simp only [herr, Bool.false_eq_true, false_and, if_false, lt_irrefl, andThen_ret, bind_run, h63]
  rw [length_open o4 hs]
  simp only [andThen_ret, pure_run]
  exact ⟨_, rfl⟩

theorem resync_null (x : FilebufIO) (w : World) (hs : x.itsStream = none) :
    resync x w = Outcome.undefined := by
  simp [resync, stdio, rewind, stdioCall, hs]

theorem read_null (x : FilebufIO) (w : World) (hr : x.itsReadable = true)
    (hs : x.itsStream = none) (size : Int) (t : Bool) :
    FilebufIO.read size t x w = Outcome.undefined := by
  simp [ FilebufIO.read, hr, stdio, fread, stdioCall, hs]

theorem write_null (x : FilebufIO) (w : World) (hw : x.itsWritable = true)
    (hs : x.itsStream = none) (size : Int) (buf : List Byte) (hpos : 0 < size) :
    FilebufIO.write size buf x w = Outcome.undefined := by
  simp [ FilebufIO.write, hw, hpos, stdio, fwrite, stdioCall, hs]

theorem keeps_pure {α : Type} (a : α) : Keeps (pure a : M α) := by
  intro x w x1 h
  simpa [Outcome.fields] using h.symm

theorem keeps_this : Keeps this := by
  intro x w x1 h
  simpa [Outcome.fields] using h.symm

theorem keeps_raise {α : Type} (e : AipsError) : Keeps (raise e : M α) := by
  intro x w x1 h
  simpa [Outcome.fields] using h.symm

theorem keeps_sys {α : Type} (g : World → α × World) : Keeps (sys g) := by
  intro x w x1 h
  simpa [Outcome.fields] using h.symm

theorem keeps_stdio {α : Type} (g : World → Option (α × World)) : Keeps (stdio g) := by
  intro x w x1 h
  unfold stdio at h
  cases hg : g w with
  | none => simp [hg, Outcome.fields] at h
  | some p => simpa [hg, Outcome.fields] using h.symm

theorem keeps_bind {α β : Type} (m : M α) (k : α → M β) (hm : Keeps m)
    (hk : ∀ a, Keeps (k a)) : Keeps (m >>= k) := by
  intro x w x1 h
  rw [bind_run] at h
  cases ho : m x w with
  | ret a x2 w2 =>
    have e : x2 = x := hm x w x2 (by rw [ho]; rfl)
    rw [ho, andThen_ret] at h
    rw [← e]
    exact hk a x2 w2 x1 h
  | raise e x2 w2 =>
    have e2 : x2 = x := hm x w x2 (by rw [ho]; rfl)
    rw [ho, andThen_raise] at h
    rw [← e2]
    simpa [Outcome.fields] using h.symm
  | undefined =>
    rw [ho, andThen_undefined] at h
    simp [Outcome.fields] at h

theorem keeps_ite {α : Type} (c : Prop) [Decidable c] (m1 m2 : M α) (h1 : Keeps m1)
    (h2 : Keeps m2) : Keeps (if c then m1 else m2) := by
  by_cases hc : c
  · rw [if_pos hc]; exact h1
  · rw [if_neg hc]; exact h2

theorem keeps_discard {α : Type} (m : M α) (hm : Keeps m) : Keeps (discard m) := by
  intro x w x1 h
  rw [discard_run] at h
  cases ho : m x w with
  | ret a x2 w2 =>
    have e : x2 = x := hm x w x2 (by rw [ho]; rfl)
    rw [ho, andThen_ret] at h
    rw [← e]
    simpa [Outcome.fields] using h.symm
  | raise e x2 w2 =>
    have e2 : x2 = x := hm x w x2 (by rw [ho]; rfl)
    rw [ho, andThen_raise] at h
    rw [← e2]
    simpa [Outcome.fields] using h.symm
  | undefined =>
    rw [ho, andThen_undefined] at h
    simp [Outcome.fields] at h

theorem keeps_doSeek (offset : Int) (dir : SeekOption) : Keeps (doSeek offset dir) := by
  unfold doSeek
  refine keeps_bind _ _ keeps_this fun x0 => ?_
  refine keeps_ite _ _ _ (keeps_pure 0) ?_
  cases dir
  all_goals
    dsimp only
    repeat' first
      | exact keeps_this
      | exact keeps_pure _
      | exact keeps_stdio _
      | refine keeps_discard _ ?_
      | refine keeps_bind _ _ ?_ (fun _ => ?_)

theorem keeps_seek (offset : Int) (dir : SeekOption) : Keeps (seek offset dir) :=
  keeps_doSeek offset dir

theorem keeps_length : Keeps FilebufIO.length := by
  unfold FilebufIO.length
  repeat' first
    | exact keeps_seek _ _
    | exact keeps_pure _
    | refine keeps_discard _ ?_
    | refine keeps_ite _ _ _ ?_ ?_
    | refine keeps_bind _ _ ?_ (fun _ => ?_)

theorem keeps_flush : Keeps flush := by
  unfold flush
  repeat' first
    | exact keeps_this
    | exact keeps_pure _
    | exact keeps_stdio _
    | refine keeps_ite _ _ _ ?_ ?_
    | refine keeps_bind _ _ ?_ (fun _ => ?_)

theorem keeps_resync : Keeps resync := by
  unfold resync
  repeat' first
    | exact keeps_this
    | exact keeps_stdio _
    | refine keeps_bind _ _ ?_ (fun _ => ?_)

theorem keeps_write (size : Int) (buf : List Byte) : Keeps ( FilebufIO.write size buf) := by
  unfold FilebufIO.write
  repeat' first
    | exact keeps_this
    | exact keeps_pure _
    | exact keeps_raise _
    | exact keeps_stdio _
    | refine keeps_ite _ _ _ ?_ ?_
    | refine keeps_bind _ _ ?_ (fun _ => ?_)

theorem keeps_read (size : Int) (t : Bool) : Keeps ( FilebufIO.read size t) := by
  unfold FilebufIO.read
  repeat' first
    | exact keeps_this
    | exact keeps_pure _
    | exact keeps_raise _
    | exact keeps_stdio _
    | refine keeps_ite _ _ _ ?_ ?_
    | refine keeps_bind _ _ ?_ (fun _ => ?_)

theorem detach_fields (c : Bool) (x : FilebufIO) (w : World) (x1 : FilebufIO)
    (h : (detach c x w).fields = some x1) :
    x1 = { x with itsFileDesc := -1, itsDupFileDesc := -1, itsStream := none } := by
  cases hs : x.itsStream with
  | none =>
    simp [detach, hs, Outcome.fields] at h
    rw [← h]
  | some n =>
    cases hcl : fclose (some n) w with
    | none => simp [detach, hs, stdio, hcl, Outcome.fields] at h
    | some p =>
      cases c
      · simp [detach, hs, stdio, hcl, Outcome.fields] at h
        rw [← h]
      · simp [detach, hs, stdio, hcl, Outcome.fields] at h
        rw [← h]

/-- On a descriptor that is not open `attach` ends in `rewind` on a null stream. -/
theorem attach_closed (x : FilebufIO) (w : World) (d : Int) (k : Nat)
    (hfd : w.file d = none) : attach d k x w = Outcome.undefined := by
  have hneg : ∀ v : World, v.file (-1) = none := by
    intro v
    simp [World.file]
  simp [attach, fcntl_GETFL, dup, fdopen, hfd, hneg, stdio, rewind, stdioCall]

theorem attach_fields (x : FilebufIO) (w : World) (d : Int) (k : Nat) (x1 : FilebufIO)
    (h : (attach d k x w).fields = some x1) :
    x1.itsStream ≠ none ∧ 0 ≤ x1.itsDupFileDesc := by
  cases hfd : w.file d with
  | none =>
    rw [attach_closed x w d k hfd] at h
    simp [Outcome.fields] at h
  | some p =>
    obtain ⟨i, f⟩ := p
    obtain ⟨w1, h1, -⟩ := attach_open x w d k i f hfd
    rw [h1] at h
    simp only [Outcome.fields, Option.some.injEq] at h
    rw [← h]
    constructor
    · simp [attachedFields]
    · simp [attachedFields]

/-- In every reachable state the duplicated descriptor and the stream are both
absent or both present. -/
theorem descriptor_and_stream_together (x : FilebufIO) (w : World) (h : Reachable x w) :
    (x.itsStream = none ∧ x.itsDupFileDesc = -1)
    ∨ (x.itsStream ≠ none ∧ 0 ≤ x.itsDupFileDesc) := by
  induction h with
  | init w => exact Or.inl ⟨rfl, rfl⟩
  | step op x w x1 w1 _ hf _ ih =>
    cases op with
    | attach fd k => exact Or.inr (attach_fields x w fd k x1 hf)
    | detach c =>
      have e := detach_fields c x w x1 hf
      rw [e]
      exact Or.inl ⟨rfl, rfl⟩
    | read size t =>
      rw [keeps_discard _ (keeps_read size t) x w x1 hf]
      exact ih
    | write size buf =>
      rw [keeps_write size buf x w x1 hf]
      exact ih
    | seek offset dir =>
      rw [keeps_discard _ (keeps_seek offset dir) x w x1 hf]
      exact ih
    | length =>
      rw [keeps_discard _ keeps_length x w x1 hf]
      exact ih
    | flush =>
      rw [keeps_flush x w x1 hf]
      exact ih
    | resync =>
      rw [keeps_resync x w x1 hf]
      exact ih

end members

end Casacore

/-! ## The claims -/

namespace Casacore
open FilebufIO

theorem hello_open : helloWorld.Open helloInstance.itsStream 0 helloStream 0 helloFile :=
  ⟨by decide, by decide⟩

/-- C1: after `attach (d, k)` on an open descriptor `d` the readable and writable
flags follow the access mode of the descriptor's open flags, whatever the other
bits of the flags are: read-only gives readable and not writable, write-only the
reverse, read-write both. -/
theorem attach_flags_follow_access_mode (x : FilebufIO) (w : World) (d : Int) (k : Nat) (i : Nat)
    (f : OpenFile) (hfd : w.file d = some (i, f)) :
    ∃ x1 w1, attach d k x w = Outcome.ret () x1 w1
      ∧ (cAnd (f.flags : Int) O_ACCMODE = O_RDONLY →
          isReadable x1 = true ∧ isWritable x1 = false)
      ∧ (cAnd (f.flags : Int) O_ACCMODE = O_WRONLY →
          isReadable x1 = false ∧ isWritable x1 = true)
      ∧ (cAnd (f.flags : Int) O_ACCMODE = O_RDWR →
          isReadable x1 = true ∧ isWritable x1 = true) := by
  obtain ⟨w1, h1, -, -⟩ := attach_open x w d k i f hfd
  obtain ⟨c0, c1, c2⟩ := cAnd_accmode (f.flags : Int)
  refine ⟨_, w1, h1, ?_, ?_, ?_⟩
  · intro h
    obtain ⟨a, b⟩ := c0 h
    simp only [isReadable, isWritable, attachedFields, readableFlag, writableFlag, a, b]
    decide
  · intro h
    obtain ⟨a, b⟩ := c1 h
    simp only [isReadable, isWritable, attachedFields, readableFlag, writableFlag, a, b]
    decide
  · intro h
    obtain ⟨a, b⟩ := c2 h
    simp only [isReadable, isWritable, attachedFields, readableFlag, writableFlag, a, b]
    decide

/-- C1 at a concrete input: a descriptor open `O_WRONLY | O_APPEND`. -/
theorem attach_flags_follow_access_mode_witness :
    appendWorld.file 3 = some (0, appendFile)
    ∧ cAnd (appendFile.flags : Int) O_ACCMODE = O_WRONLY
    ∧ ∃ x1 w1, attach 3 0 FilebufIO.new appendWorld = Outcome.ret () x1 w1
        ∧ isReadable x1 = false ∧ isWritable x1 = true := by
  obtain ⟨x1, w1, h, -, hwo, -⟩ :=
    attach_flags_follow_access_mode FilebufIO.new appendWorld 3 0 0 appendFile (by decide)
  exact ⟨by decide, by decide, x1, w1, h, hwo (by decide)⟩

/-- C2: `write` on an instance whose writable flag is false throws the
not-writable error, and `read` on one whose readable flag is false throws the
not-readable error for both values of `throwException`; the fields and the world
(file contents, streams, and the list of calls made) are as before the call. -/
theorem refused_without_capability (x : FilebufIO) (w : World) (size : Int) (buf : List Byte) :
    (x.itsWritable = false →
        FilebufIO.write size buf x w = Outcome.raise AipsError.notWritable x w)
    ∧ (x.itsReadable = false → ∀ t : Bool,
        FilebufIO.read size t x w = Outcome.raise AipsError.notReadable x w) := by
  constructor
  · intro h
    simp [ FilebufIO.write, h]
  · intro h t
    simp [ FilebufIO.read, h]

/-- C2 at a concrete input: a default-constructed instance has neither flag. -/
theorem refused_without_capability_witness :
    FilebufIO.new.itsWritable = false ∧ FilebufIO.new.itsReadable = false
    ∧ FilebufIO.write 5 hello FilebufIO.new emptyFileWorld
        = Outcome.raise AipsError.notWritable FilebufIO.new emptyFileWorld
    ∧ FilebufIO.read 5 false FilebufIO.new emptyFileWorld
        = Outcome.raise AipsError.notReadable FilebufIO.new emptyFileWorld :=
  ⟨rfl, rfl, (refused_without_capability FilebufIO.new emptyFileWorld 5 hello).1 rfl,
    (refused_without_capability FilebufIO.new emptyFileWorld 5 hello).2 rfl false⟩

/-- C3: round trip.  On an instance attached (with any buffer size) to an empty
regular file open read-write on a device that does not fail, `write (n, b)`,
`flush ()`, `seek (0, Begin)`, `read (n, buf)` and `length ()` all return, for every
non-empty `b` of length `n`: the seek returns 0, the read returns `n` with `buf`
equal to `b`, and `length` returns `n`. -/
theorem write_flush_seek_read_round_trip (x : FilebufIO) (w : World) (d : Int) (k : Nat)
    (i : Nat) (f : OpenFile) (b : List Byte) (hfd : w.file d = some (i, f))
    (hrw : cAnd (f.flags : Int) O_ACCMODE = O_RDWR) (hreg : f.seekable = true)
    (hio : f.ioerr = false) (hempty : f.bytes = []) (hb : b ≠ [])
    (h64 : b.length < 2 ^ 63) :
    ∃ x1 w1, (do
        attach d k
        FilebufIO.write (b.length : Int) b
        flush
        let p ← seek 0 SeekOption.Begin
        let r ← FilebufIO.read (b.length : Int) true
        let l ← FilebufIO.length
        pure (p, r, l) : M (Int × (Int × List Byte) × Int)) x w
      = Outcome.ret (0, ((b.length : Int), b), (b.length : Int)) x1 w1 := by
  obtain ⟨w1, ha, o1, -⟩ := attach_open x w d k i f hfd
  obtain ⟨-, -, c2⟩ := cAnd_accmode (f.flags : Int)
  obtain ⟨a2, a1⟩ := c2 hrw
  have hmode := attachMode_rdwr (f.flags : Int) hrw
  have hr : (attachedFields x w d k f).itsReadable = true := by
    simp only [attachedFields, readableFlag, a2, a1]
    decide
  have hw : (attachedFields x w d k f).itsWritable = true := by
    simp only [attachedFields, writableFlag, a2, a1]
    decide
  have hmr : canRead (attachMode (f.flags : Int)) = true := by rw [hmode]; decide
  have hmw : canWrite (attachMode (f.flags : Int)) = true := by rw [hmode]; decide
  obtain ⟨w2, h2⟩ := round_trip_open (x := attachedFields x w d k f) o1 hr hw
    hmr hmw rfl hio hreg (by simp [hreg]) hempty b hb h64
  refine ⟨attachedFields x w d k f, w2, ?_⟩
  rw [bind_run, ha, andThen_ret]
  exact h2

/-- C3 at a concrete input: the five bytes of "hello" on a fresh instance. -/
theorem write_flush_seek_read_round_trip_witness :
    emptyFileWorld.file 3 = some (0, emptyFile)
    ∧ ∃ x1 w1, (do
        attach 3 0
        FilebufIO.write (hello.length : Int) hello
        flush
        let p ← seek 0 SeekOption.Begin
        let r ← FilebufIO.read (hello.length : Int) true
        let l ← FilebufIO.length
        pure (p, r, l) : M (Int × (Int × List Byte) × Int)) FilebufIO.new emptyFileWorld
      = Outcome.ret (0, ((hello.length : Int), hello), (hello.length : Int)) x1 w1 :=
  ⟨by decide,
    write_flush_seek_read_round_trip FilebufIO.new emptyFileWorld 3 0 0 emptyFile hello
      (by decide) (by decide) rfl rfl rfl (by decide) (by decide)⟩

/-- C4: on a readable instance attached to a stream that is open for reading and
not in an error state, a request for `size > 0` bytes when only `m < size` remain
throws the short-read error carrying `m` and `size` if `throwException` is true,
and returns `m` (with the `m` remaining bytes) if it is false; when at least
`size` bytes remain both calls return `size`. -/
theorem read_short_or_full {x : FilebufIO} {w : World} {n i : Nat} {s : Stream} {f : OpenFile}
    (o : w.Open x.itsStream n s i f) (hr : x.itsReadable = true)
    (hmode : canRead s.mode = true) (herr : s.err = false) (hio : f.ioerr = false)
    (size : Int) (hpos : 0 < size) (h64 : size < 2 ^ 63) :
    ((f.rest.length : Int) < size →
        FilebufIO.read size true x w
          = Outcome.raise (AipsError.shortRead f.rest.length size) x
              (w.upd [Call.fread x.itsStream 1 size.toNat, Call.ferror x.itsStream] n s i
                { f with pos := f.pos + f.rest.length })
        ∧ FilebufIO.read size false x w
          = Outcome.ret ((f.rest.length : Int), f.rest) x
              (w.upd [Call.fread x.itsStream 1 size.toNat, Call.ferror x.itsStream] n s i
                { f with pos := f.pos + f.rest.length }))
    ∧ (size ≤ (f.rest.length : Int) → ∀ t : Bool,
        FilebufIO.read size t x w
          = Outcome.ret (size, f.rest.take size.toNat) x
              (w.upd [Call.fread x.itsStream 1 size.toNat, Call.ferror x.itsStream] n s i
                { f with pos := f.pos + size.toNat })) := by
  have hsz : toSizeT size = size.toNat := toSizeT_of_nonneg size (by omega) h64
  have hnat : ((size.toNat : Nat) : Int) = size := Int.toNat_of_nonneg (by omega)
  constructor
  · intro hm
    have hle : f.rest.length ≤ size.toNat := by omega
    have hlt : f.rest.length < size.toNat := by omega
    have hstep : freadStep size.toNat s f
        = (f.rest, s, { f with pos := f.pos + f.rest.length }) := by
      rw [freadStep_ok _ _ _ hmode hio, List.take_of_length_le hle]
    have h63 : f.rest.length < 2 ^ 63 := by omega
    constructor
    · rw [read_open o hr, hsz, hstep]
      simp [herr, hlt]
    · rw [read_open o hr, hsz, hstep]
      simp [toInt64_of_lt _ h63]
  · intro hm t
    have hle : size.toNat ≤ f.rest.length := by omega
    have hlen : (f.rest.take size.toNat).length = size.toNat := by
      rw [List.length_take]; omega
    have hstep : freadStep size.toNat s f
        = (f.rest.take size.toNat, s, { f with pos := f.pos + size.toNat }) := by
      rw [freadStep_ok _ _ _ hmode hio, hlen]
    have h63 : size.toNat < 2 ^ 63 := by omega
    rw [read_open o hr, hsz, hstep]
    simp [herr, hlen, toInt64_of_lt _ h63, hnat]

/-- C4 at a concrete input: three bytes remain; 7 are requested, then 2. -/
theorem read_short_or_full_witness :
    ( FilebufIO.read 7 true helloInstance helloWorld).error = some (AipsError.shortRead 3 7)
    ∧ ( FilebufIO.read 7 false helloInstance helloWorld).value = some (3, [108, 108, 111])
    ∧ ( FilebufIO.read 2 true helloInstance helloWorld).value = some (2, [108, 108]) := by
  have h := read_short_or_full hello_open rfl (by decide) rfl rfl 7 (by decide) (by decide)
  have g := read_short_or_full hello_open rfl (by decide) rfl rfl 2 (by decide) (by decide)
  refine ⟨?_, ?_, ?_⟩
  · rw [(h.1 (by decide)).1]; rfl
  · rw [(h.1 (by decide)).2]; rfl
  · rw [g.2 (by decide) true]; rfl

/-- C5 fails with `throwException` false: on a readable instance whose stream has
its error indicator set after the read, `read (4, buf, false)` returns 0 and throws
nothing, while `read (4, buf, true)` throws the bad-value error. -/
theorem read_error_passes_when_tolerant :
    ((do attach 3 0; FilebufIO.read 4 false : M (Int × List Byte))
        FilebufIO.new faultyWorld).value = some (0, [])
    ∧ (((do attach 3 0; FilebufIO.read 4 false : M (Int × List Byte))
        FilebufIO.new faultyWorld).world.bind fun w => w.stream (some 0)).map
          (fun p => p.2.err) = some true
    ∧ ((do attach 3 0; FilebufIO.read 4 true : M (Int × List Byte))
        FilebufIO.new faultyWorld).error = some AipsError.badValue := by
  decide

/-- C6: on a writable attached instance, `write` with `size > 0` makes exactly one
`fwrite` call, for one item of `size` bytes, and throws the write error exactly
when that call does not return 1; with `size <= 0` it makes no call, returns, and
leaves the world as it was. -/
theorem write_single_request {x : FilebufIO} {w : World} {n i : Nat} {s : Stream} {f : OpenFile}
    (o : w.Open x.itsStream n s i f) (hw : x.itsWritable = true) (size : Int)
    (buf : List Byte) (h64 : size < 2 ^ 63) :
    (0 < size → ∃ r w1, fwrite buf size.toNat x.itsStream w = some (r, w1)
        ∧ w1.trace = w.trace ++ [Call.fwrite x.itsStream size.toNat 1]
        ∧ FilebufIO.write size buf x w
            = if r = 1 then Outcome.ret () x w1 else Outcome.raise AipsError.writeError x w1)
    ∧ (size ≤ 0 → FilebufIO.write size buf x w = Outcome.ret () x w) := by
  constructor
  · intro hpos
    have hsz : toSizeT size = size.toNat := toSizeT_of_nonneg size (by omega) h64
    refine ⟨(fwriteStep buf size.toNat s f).1,
      w.upd [Call.fwrite x.itsStream size.toNat 1] n (fwriteStep buf size.toNat s f).2.1 i
        (fwriteStep buf size.toNat s f).2.2, ?_, rfl, ?_⟩
    · unfold fwrite
      rw [stdioCall_open o]
    · rw [write_open o hw, hsz]
      by_cases h1 : (fwriteStep buf size.toNat s f).1 = 1 <;> simp [hpos, h1]
  · intro hle
    have : ¬ size > 0 := by omega
    rw [write_open o hw, if_neg this]

/-- C6 at a concrete input: two bytes written through the attached instance. -/
theorem write_single_request_witness :
    ∃ r w1, fwrite [1, 2] (2 : Int).toNat helloInstance.itsStream helloWorld = some (r, w1)
      ∧ w1.trace = helloWorld.trace ++ [Call.fwrite helloInstance.itsStream (2 : Int).toNat 1]
      ∧ FilebufIO.write 2 [1, 2] helloInstance helloWorld
          = if r = 1 then Outcome.ret () helloInstance w1
            else Outcome.raise AipsError.writeError helloInstance w1 :=
  (write_single_request hello_open rfl 2 [1, 2] (by decide)).1 (by decide)

/-- C7: on an instance attached to a seekable stream of `n` bytes with the file
offset at any `p`, beyond the end included, `length` returns `n`; the world after
the call differs from the one before only in the recorded calls, so the offset
is `p` again and the contents are unchanged. -/
theorem length_restores_position {x : FilebufIO} {w : World} {n i : Nat} {s : Stream}
    {f : OpenFile} (o : w.Open x.itsStream n s i f) (hs : f.seekable = true) :
    FilebufIO.length x w
      = Outcome.ret (f.bytes.length : Int) x
          { w with trace := w.trace ++
              [Call.fseeko x.itsStream 0 SEEK_CUR, Call.ftello x.itsStream,
               Call.fseeko x.itsStream 0 SEEK_END, Call.ftello x.itsStream,
               Call.fseeko x.itsStream (f.pos : Int) SEEK_SET, Call.ftello x.itsStream] } := by
  rw [length_open o hs, o.upd_self]

/-- C7 at a concrete input: five bytes, offset 2; the files are as before. -/
theorem length_restores_position_witness :
    helloFile.seekable = true
    ∧ ( FilebufIO.length helloInstance helloWorld).value = some 5
    ∧ (( FilebufIO.length helloInstance helloWorld).world.map fun w => w.files) = some [helloFile] := by
  refine ⟨rfl, ?_, ?_⟩
  · rw [length_restores_position hello_open rfl]; rfl
  · rw [length_restores_position hello_open rfl]; rfl

/-- C8 as stated fails on a stream that cannot seek: on a pipe holding 1 2 3 4,
after two bytes were read, `resync` followed by `read (2, buf)` returns the bytes
3 4, not the first two bytes of the contents. -/
theorem resync_then_read_on_pipe :
    ((do attach 3 0; let _ ← FilebufIO.read 2 true; resync; FilebufIO.read 2 true :
        M (Int × List Byte)) FilebufIO.new pipeWorld).value = some (2, [3, 4])
    ∧ ([3, 4] : List Byte) ≠ List.take 2 [1, 2, 3, 4] := by
  decide

/-- C8, amended: on a readable instance attached to a seekable stream that is open
for reading, whose device does not fail and whose contents have at least `m`
bytes, `resync` followed by `read (m, buf)` returns `m` and the first `m` bytes of
the contents, whatever the file offset and the error indicator were before. -/
theorem resync_then_read_from_start {x : FilebufIO} {w : World} {n i : Nat} {s : Stream}
    {f : OpenFile} (o : w.Open x.itsStream n s i f) (hr : x.itsReadable = true)
    (hmode : canRead s.mode = true) (hio : f.ioerr = false) (hs : f.seekable = true)
    (m : Nat) (hm : m ≤ f.bytes.length) (h64 : m < 2 ^ 63) :
    (resync >>= fun _ => FilebufIO.read (m : Int) true) x w
      = Outcome.ret ((m : Int), f.bytes.take m) x
          (w.upd [Call.rewind x.itsStream, Call.fread x.itsStream 1 m, Call.ferror x.itsStream]
            n { s with err := false } i { f with pos := m }) := by
  have hsz : toSizeT (m : Int) = m := by
    rw [toSizeT_of_nonneg _ (by omega) (by exact_mod_cast h64)]; rfl
  have o1 := o.upd [Call.rewind x.itsStream] { s with err := false } { f with pos := 0 } rfl
  have hlen : (f.bytes.take m).length = m := by
    rw [List.length_take]; omega
  have hstep : freadStep m { s with err := false } { f with pos := 0 }
      = (f.bytes.take m, { s with err := false }, { f with pos := m }) := by
    rw [freadStep_ok m { s with err := false } { f with pos := 0 } hmode hio]
    simp [OpenFile.rest, hlen]
  have hrw : rewindStep s f = ((), { s with err := false }, { f with pos := 0 }) := by
    unfold rewindStep
    rw [if_pos hs]
  rw [bind_run, resync_open o, hrw]
  simp only [andThen_ret]
  rw [read_open o1 hr, hsz, hstep]
  simp [hlen, toInt64_of_lt _ h64, upd_upd]

/-- C8, amended, at a concrete input: offset 2 before the call, first three bytes read. -/
theorem resync_then_read_from_start_witness :
    ((resync >>= fun _ => FilebufIO.read ((3 : Nat) : Int) true) helloInstance helloWorld).value
      = some (3, [104, 101, 108]) := by
  rw [resync_then_read_from_start hello_open rfl (by decide) rfl rfl 3 (by decide) (by decide)]
  rfl

/-- C9: `detach` on an instance whose stream is absent, or is an open stream of
the world, returns with both descriptor fields -1 and the stream absent.  The
calls it makes are `fclose` on the stream when one is present, followed by `close`
on the original descriptor exactly when a stream is present and `closeFile` is
true; the stream is closed afterwards.  With `closeFile` false every descriptor
other than the stream's own refers to what it referred to before.  The
destructor is `detach` with `closeFile` false. -/
theorem detach_closes_original_only_on_request (x : FilebufIO) (w : World) (closeFile : Bool)
    (hs : x.itsStream = none ∨ ∃ n s, w.stream x.itsStream = some (n, s)) :
    ∃ w1, detach closeFile x w
        = Outcome.ret () { x with itsFileDesc := -1, itsDupFileDesc := -1, itsStream := none } w1
      ∧ w1.trace = w.trace ++
          (if x.itsStream = none then []
           else if closeFile = true then [Call.fclose x.itsStream, Call.close x.itsFileDesc]
           else [Call.fclose x.itsStream])
      ∧ w1.stream x.itsStream = none
      ∧ (closeFile = false → ∀ fd : Int,
          (∀ n s, w.stream x.itsStream = some (n, s) → fd ≠ s.fd) → w1.file fd = w.file fd)
      ∧ destructor x w = detach false x w := by
  rcases hs with hnone | ⟨n, s, hst⟩
  · refine ⟨w, ?_, ?_, ?_, ?_, rfl⟩
    · simp [detach, hnone]
    · simp [hnone]
    · simp [hnone]
    · intro _ fd _; rfl
  · have hne : x.itsStream ≠ none := by
      intro e; rw [e] at hst; simp at hst
    obtain ⟨w1, hcl, htr, hgone, hframe⟩ := fclose_open w x.itsStream n s hst
    cases closeFile with
    | false =>
      refine ⟨w1, ?_, ?_, hgone, ?_, rfl⟩
      · simp [detach, hne, stdio, hcl]
      · simp [hne, htr]
      · intro _ fd hfd
        exact hframe fd (hfd n s hst)
    | true =>
      refine ⟨(close x.itsFileDesc w1).2, ?_, ?_, ?_, ?_, rfl⟩
      · simp [detach, hne, stdio, hcl]
      · simp [hne, close_trace, htr]
      · rw [close_stream]; exact hgone
      · intro h; exact absurd h (by simp)

/-- C9 at a concrete input: `detach (true)` closes descriptor 3 after the stream;
`detach (false)` leaves descriptor 3 referring to the file. -/
theorem detach_closes_original_only_on_request_witness :
    (∃ w1, detach true helloInstance helloWorld
        = Outcome.ret ()
            { helloInstance with itsFileDesc := -1, itsDupFileDesc := -1, itsStream := none } w1
      ∧ w1.trace = [Call.fclose (some 0), Call.close 3])
    ∧ (∃ w1, detach false helloInstance helloWorld
        = Outcome.ret ()
            { helloInstance with itsFileDesc := -1, itsDupFileDesc := -1, itsStream := none } w1
      ∧ w1.trace = [Call.fclose (some 0)] ∧ w1.file 3 = some (0, helloFile)) := by
  obtain ⟨w1, h1, h2, -⟩ := detach_closes_original_only_on_request helloInstance helloWorld true
    (Or.inr ⟨0, helloStream, by decide⟩)
  obtain ⟨w2, g1, g2, -, g4, -⟩ := detach_closes_original_only_on_request helloInstance
    helloWorld false (Or.inr ⟨0, helloStream, by decide⟩)
  refine ⟨⟨w1, h1, h2⟩, w2, g1, g2, ?_⟩
  rw [g4 rfl 3 ?_]
  · decide
  · intro n s hs
    have e : s = helloStream := by
      have h0 : helloWorld.stream helloInstance.itsStream = some (0, helloStream) := by decide
      rw [h0] at hs
      simp only [Option.some.injEq, Prod.mk.injEq] at hs
      exact hs.2.symm
    rw [e]
    decide

/-- C10 fails after an earlier attachment: `attach (3, 8)`, `detach ()`, then
`attach (3, 0)` leaves `bufferSize ()` at 8 and the buffer of 8 bytes held, where
the claim says 0 and no buffer. -/
theorem bufferSize_stale_after_reattach :
    ((do attach 3 8; detach false; attach 3 0 : M Unit) FilebufIO.new emptyFileWorld).fields.map
        (fun x => (bufferSize x, x.itsBuffer)) = some (8, some 8) := by
  decide

/-- C11 fails after `detach`: the state after `attach (3, 8)` and `detach ()` on a
default-constructed instance is reachable, its duplicated descriptor and its
stream are absent, and it still holds the buffer of 8 bytes and the recorded
buffer size 8. -/
theorem buffer_kept_after_detach :
    ∃ x w, Reachable x w ∧ x.itsDupFileDesc = -1 ∧ x.itsStream = none
      ∧ x.itsBuffer = some 8 ∧ bufferSize x = 8 :=
  ⟨_, _,
    Reachable.step (Op.detach false) _ _ _ _
      (Reachable.step (Op.attach 3 8) _ _ _ _ (Reachable.init emptyFileWorld) rfl rfl) rfl rfl,
    by decide, by decide, by decide, by decide⟩

/-- C12 as stated fails: on a descriptor whose open flags have both access-mode
bits set, `attach` opens the stream with mode "r+" and leaves the instance
readable and writable, not read-only. -/
theorem attach_both_bits_is_read_write :
    cAnd (bothBitsFile.flags : Int) O_ACCMODE = 3
    ∧ ((attach 3 0 FilebufIO.new bothBitsWorld).world.bind fun w => w.stream (some 0)).map
        (fun p => p.2.mode) = some "r+"
    ∧ (attach 3 0 FilebufIO.new bothBitsWorld).fields.map (fun x => (isReadable x, isWritable x))
        = some (true, true) := by
  decide

/-- C12, amended: after `attach (d, k)` on an open descriptor, whatever its open
flags, the stream of the instance was opened by `fdopen` on the duplicate with a
mode that allows reading exactly when the instance is readable and writing
exactly when it is writable; when both access-mode bits are set the mode is "r+"
and the instance is readable and writable. -/
theorem attach_mode_matches_flags (x : FilebufIO) (w : World) (d : Int) (k : Nat) (i : Nat)
    (f : OpenFile) (hfd : w.file d = some (i, f)) :
    ∃ x1 w1 n s, attach d k x w = Outcome.ret () x1 w1
      ∧ w1.stream x1.itsStream = some (n, s)
      ∧ Call.fdopen x1.itsDupFileDesc s.mode ∈ w1.trace
      ∧ isReadable x1 = canRead s.mode ∧ isWritable x1 = canWrite s.mode
      ∧ (cAnd (f.flags : Int) O_ACCMODE = 3 →
          s.mode = "r+" ∧ isReadable x1 = true ∧ isWritable x1 = true) := by
  obtain ⟨w1, h1, o1, -, htr⟩ := attach_open x w d k i f hfd
  obtain ⟨ar, aw, a3⟩ := flags_agree_with_mode (f.flags : Int)
  refine ⟨_, w1, _, _, h1, o1.stream, htr, ar, aw, ?_⟩
  intro h3
  have hm := a3 h3
  refine ⟨hm, ?_, ?_⟩
  · show readableFlag (f.flags : Int) = true
    rw [ar, hm]; decide
  · show writableFlag (f.flags : Int) = true
    rw [aw, hm]; decide

/-- C12, amended, at a concrete input: open flags 3. -/
theorem attach_mode_matches_flags_witness :
    bothBitsWorld.file 3 = some (0, bothBitsFile)
    ∧ ∃ x1 w1 n s, attach 3 0 FilebufIO.new bothBitsWorld = Outcome.ret () x1 w1
      ∧ w1.stream x1.itsStream = some (n, s)
      ∧ s.mode = "r+" ∧ isReadable x1 = true ∧ isWritable x1 = true := by
  obtain ⟨x1, w1, n, s, h, hs, -, -, -, h3⟩ :=
    attach_mode_matches_flags FilebufIO.new bothBitsWorld 3 0 0 bothBitsFile (by decide)
  exact ⟨by decide, x1, w1, n, s, h, hs, h3 (by decide)⟩

/-- C13: on an instance whose stream is absent (never attached, or detached),
`doSeek` and `seek` return 0 for every offset and direction, `flush` returns, and
`length` returns 0; each leaves the fields and the world, the list of calls
included, as they were. -/
theorem unattached_seek_flush_length (x : FilebufIO) (w : World) (hs : x.itsStream = none)
    (offset : Int) (dir : SeekOption) :
    doSeek offset dir x w = Outcome.ret 0 x w
    ∧ seek offset dir x w = Outcome.ret 0 x w
    ∧ flush x w = Outcome.ret () x w
    ∧ FilebufIO.length x w = Outcome.ret 0 x w := by
  have hseek : ∀ (o : Int) (dr : SeekOption), doSeek o dr x w = Outcome.ret 0 x w := by
    intro o dr
    simp [doSeek, hs]
  refine ⟨hseek offset dir, hseek offset dir, ?_, ?_⟩
  · simp [flush, hs]
  · simp [ FilebufIO.length, seek, hseek]

/-- C13 at concrete inputs: a default-constructed instance, and the fields a
`detach` leaves. -/
theorem unattached_seek_flush_length_witness :
    (seek 7 SeekOption.End FilebufIO.new helloWorld = Outcome.ret 0 FilebufIO.new helloWorld
      ∧ flush FilebufIO.new helloWorld = Outcome.ret () FilebufIO.new helloWorld
      ∧ FilebufIO.length FilebufIO.new helloWorld = Outcome.ret 0 FilebufIO.new helloWorld)
    ∧ FilebufIO.length
        { helloInstance with itsFileDesc := -1, itsDupFileDesc := -1, itsStream := none }
        helloWorld
      = Outcome.ret 0
        { helloInstance with itsFileDesc := -1, itsDupFileDesc := -1, itsStream := none }
        helloWorld :=
  ⟨⟨(unattached_seek_flush_length FilebufIO.new helloWorld rfl 7 SeekOption.End).2.1,
      (unattached_seek_flush_length FilebufIO.new helloWorld rfl 7 SeekOption.End).2.2.1,
      (unattached_seek_flush_length FilebufIO.new helloWorld rfl 7 SeekOption.End).2.2.2⟩,
    (unattached_seek_flush_length _ helloWorld rfl 0 SeekOption.Begin).2.2.2⟩

/-- C14 fails: `resync` on a default-constructed instance gives `rewind` a null
stream, in every world; and in the reachable state after `attach (3, 0)` and
`detach ()` on a read-write file the stream is absent while both flags are still
set, so every `read` and every `write` of a positive size gives `fread`, `fwrite`
a null stream. -/
theorem null_stream_reaches_stdio :
    (∀ w : World, resync FilebufIO.new w = Outcome.undefined)
    ∧ ∃ x w, Reachable x w ∧ x.itsStream = none ∧ isReadable x = true ∧ isWritable x = true
      ∧ (∀ (size : Int) (t : Bool), FilebufIO.read size t x w = Outcome.undefined)
      ∧ (∀ (size : Int) (buf : List Byte), 0 < size →
          FilebufIO.write size buf x w = Outcome.undefined) :=
  ⟨fun w => resync_null FilebufIO.new w rfl,
    _, _,
    Reachable.step (Op.detach false) _ _ _ _
      (Reachable.step (Op.attach 3 0) _ _ _ _ (Reachable.init emptyFileWorld) rfl rfl) rfl rfl,
    by decide, by decide, by decide,
    fun size t => read_null _ _ (by decide) (by decide) size t,
    fun size buf hpos => write_null _ _ (by decide) (by decide) size buf hpos⟩

end Casacore
